import Mathlib

/-!
Verification of `pal_process.cpp`: process spawning, resource limits and CPU
affinity.

A shallow embedding of `src/Native/System.Native/pal_process.cpp` and the
properties of it that were checked.

* `SystemNative_ForkAndExecProcess` is a state-passing function over a `World`
  (descriptor table, `errno`, log of system calls, the caller's output cells).
  The operating system answers through an `Env`: which `pipe`/`pipe2` calls
  fail, what `fork` returns, what each `close`, `read`, `dup2`, `chdir` and
  `execve` reports.  `pipe` and `pipe2` hand out the lowest free descriptors
  and leave the array alone when they fail; `close` releases the descriptor
  whatever it reports.  The build is the production build: `assert` is a
  no-op.  A store through a null output pointer ends the run (`nullWrite`).
  The barrier loop takes fuel; `run_total` shows that enough fuel always ends
  the run once a read is not interrupted.
* The resource-limit conversions take the platform constants as a `Platform`.
* The affinity conversions take the 32-bit value of an over-wide `1u << cpu`
  as a parameter.
-/

namespace PalProcess

/-! ## Descriptors, the kernel and the process state -/

def EINTR : Int := 4
def EBADF : Int := 9
def EINVAL : Int := 22
def EXIT_FAILURE : Int := 1
def STDIN_FILENO : Nat := 0
def STDOUT_FILENO : Nat := 1
def STDERR_FILENO : Nat := 2

/-- The four pipes the call can create, named after the array that holds them. -/
inductive PipeId
  | stdinPipe
  | stdoutPipe
  | stderrPipe
  | execPipe
  deriving DecidableEq

/-- What an open descriptor refers to. -/
inductive FileObj
  | inherited (id : Nat)
  | readEnd (p : PipeId)
  | writeEnd (p : PipeId)
  deriving DecidableEq

/-- A process's descriptor table: entry `fd` is the object descriptor `fd`
refers to, `none` (or past the end) when `fd` is not open. -/
abbrev FdTable := List (Option FileObj)

def FdTable.lookup (t : FdTable) (fd : Nat) : Option FileObj := (t.get? fd).join

/-- The lowest descriptor number that is not open. -/
def FdTable.lowestFree (t : FdTable) : Nat := t.findIdx (fun o => o.isNone)

/-- The table with entry `fd` replaced by `o`. -/
def FdTable.assign (t : FdTable) (fd : Nat) (o : Option FileObj) : FdTable :=
  if fd < t.length then t.set fd o
  else t ++ List.replicate (fd - t.length) none ++ [o]

/-- System calls issued, with their arguments and results. -/
inductive Event
  | pipe (p : PipeId) (res : Option (Nat × Nat))
  | pipe2 (res : Option (Nat × Nat))
  | fork (ret : Int)
  | close (fd : Int)
  | read (fd : Int) (ret : Int)
  | dup2 (oldfd : Int) (newfd : Nat) (ret : Int)
  | chdir (ret : Int)
  | execve
  deriving DecidableEq

/-- State of the calling process: descriptor table, `errno`, the system calls
made so far, and the contents of the four output cells of the caller
(`none` while nothing has been stored). -/
structure World where
  fds : FdTable
  errno : Int
  trace : List Event
  childPid : Option Int
  stdinFd : Option Int
  stdoutFd : Option Int
  stderrFd : Option Int
  deriving DecidableEq

/-- The answers of the operating system and the build configuration.
An error field holds `none` when the call succeeds and `some e` when it fails
with `errno = e`.  `closeErr` and `dup2Err` are indexed by the number of system
calls made before, `readRes` (return value, `errno` on `-1`) by the number of
`read` calls made before. -/
structure Env where
  havePipe2 : Bool
  pipeErr : PipeId → Option Int
  forkRet : Int
  forkErr : Int
  closeErr : Nat → Option Int
  readRes : Nat → Int × Int
  dup2Err : Nat → Option Int
  chdirErr : Option Int
  execveErr : Option Int

/-- An `int[2]` pipe array, indexed by `READ_END_OF_PIPE` and `WRITE_END_OF_PIPE`. -/
structure FdPair where
  readEnd : Int
  writeEnd : Int
  deriving DecidableEq

/-- The four local pipe arrays. -/
structure Pipes where
  stdinFds : FdPair
  stdoutFds : FdPair
  stderrFds : FdPair
  waitForChildToExecPipe : FdPair
  deriving DecidableEq

def Pipes.get (p : Pipes) : PipeId → FdPair
  | .stdinPipe => p.stdinFds
  | .stdoutPipe => p.stdoutFds
  | .stderrPipe => p.stderrFds
  | .execPipe => p.waitForChildToExecPipe

def Pipes.set (p : Pipes) (id : PipeId) (v : FdPair) : Pipes :=
  match id with
  | .stdinPipe => { p with stdinFds := v }
  | .stdoutPipe => { p with stdoutFds := v }
  | .stderrPipe => { p with stderrFds := v }
  | .execPipe => { p with waitForChildToExecPipe := v }

/-- Arguments of the call.  A pointer argument is `true` when it is non-null;
the redirect flags are `int32_t` values. -/
structure Args where
  filename : Bool
  argv : Bool
  envp : Bool
  cwd : Bool
  redirectStdin : Int
  redirectStdout : Int
  redirectStderr : Int
  childPid : Bool
  stdinFd : Bool
  stdoutFd : Bool
  stderrFd : Bool
  deriving DecidableEq

/-- How a run of the function ends. -/
inductive Outcome
  | returned (ret : Int) (w : World)
  | nullWrite (w : World)
  | execed (w : World)
  | execFailed (status : Int) (w : World)
  | exited (status : Int) (w : World)
  deriving DecidableEq

/-! ### System calls -/

/-- Kernel side of `pipe`/`pipe2`: both ends get the lowest free descriptors. -/
def openPipe (env : Env) (id : PipeId) (arr : FdPair) (w : World) :
    Int × FdPair × Option (Nat × Nat) × World :=
  match env.pipeErr id with
  | some e => (-1, arr, none, { w with errno := e })
  | none =>
    let r := w.fds.lowestFree
    let t := w.fds.assign r (some (.readEnd id))
    let wr := t.lowestFree
    (0, { readEnd := r, writeEnd := wr }, some (r, wr),
      { w with fds := t.assign wr (some (.writeEnd id)) })

def pipe (env : Env) (id : PipeId) (p : Pipes) (w : World) : Int × Pipes × World :=
  let (ret, arr, res, w1) := openPipe env id (p.get id) w
  (ret, p.set id arr, { w1 with trace := w1.trace ++ [.pipe id res] })

def pipe2 (env : Env) (p : Pipes) (w : World) : Int × Pipes × World :=
  let (ret, arr, res, w1) := openPipe env .execPipe (p.get .execPipe) w
  (ret, p.set .execPipe arr, { w1 with trace := w1.trace ++ [.pipe2 res] })

def fork (env : Env) (w : World) : Int × World :=
  (env.forkRet,
    { w with errno := if env.forkRet = -1 then env.forkErr else w.errno
             trace := w.trace ++ [.fork env.forkRet] })

/-- The descriptor is released whatever `close` reports. -/
def close (env : Env) (fd : Int) (w : World) : World :=
  if fd < 0 ∨ w.fds.lookup fd.toNat = none then
    { w with errno := EBADF, trace := w.trace ++ [.close fd] }
  else
    { w with fds := w.fds.assign fd.toNat none
             errno := (env.closeErr w.trace.length).getD w.errno
             trace := w.trace ++ [.close fd] }

def read (env : Env) (k : Nat) (fd : Int) (w : World) : Int × World :=
  let res := env.readRes k
  (res.1, { w with errno := if res.1 = -1 then res.2 else w.errno
                   trace := w.trace ++ [.read fd res.1] })

def dup2 (env : Env) (oldfd : Int) (newfd : Nat) (w : World) : Int × World :=
  if oldfd < 0 ∨ w.fds.lookup oldfd.toNat = none then
    (-1, { w with errno := EBADF, trace := w.trace ++ [.dup2 oldfd newfd (-1)] })
  else
    match env.dup2Err w.trace.length with
    | some e => (-1, { w with errno := e, trace := w.trace ++ [.dup2 oldfd newfd (-1)] })
    | none =>
      if oldfd.toNat = newfd then
        (newfd, { w with trace := w.trace ++ [.dup2 oldfd newfd newfd] })
      else
        (newfd, { w with fds := w.fds.assign newfd (w.fds.lookup oldfd.toNat)
                         trace := w.trace ++ [.dup2 oldfd newfd newfd] })

def chdir (env : Env) (w : World) : Int × World :=
  match env.chdirErr with
  | some e => (-1, { w with errno := e, trace := w.trace ++ [.chdir (-1)] })
  | none => (0, { w with trace := w.trace ++ [.chdir 0] })

/-! ### The code of `pal_process.cpp` -/

def CloseIfOpen (env : Env) (fd : Int) (w : World) : World :=
  if fd ≥ 0 then
    let priorErrno := w.errno
    let w1 := close env fd w
    { w1 with errno := priorErrno }
  else w

/-- The bit pattern of an `int32_t`. -/
def toUInt32 (x : Int) : Nat := (x % 2 ^ 32).toNat

/-- The test `(x & ~1) != 0` on an `int32_t`. -/
def notZeroOrOne (x : Int) : Bool := decide (toUInt32 x &&& 0xFFFFFFFE ≠ 0)

/-- An `int32_t` used as a condition. -/
def isTrue32 (x : Int) : Bool := decide (toUInt32 x ≠ 0)

def nullArgument (a : Args) : Bool :=
  !a.filename || !a.argv || !a.envp || !a.stdinFd || !a.stdoutFd || !a.stderrFd || !a.childPid

def badRedirect (a : Args) : Bool :=
  notZeroOrOne a.redirectStdin || notZeroOrOne a.redirectStdout || notZeroOrOne a.redirectStderr

/-- One disjunct `redirectX && pipe(xFds) != 0` of the pipe-opening condition. -/
def redirectPipe (env : Env) (flag : Int) (id : PipeId) (p : Pipes) (w : World) :
    Bool × Pipes × World :=
  if isTrue32 flag then
    let (ret, p1, w1) := pipe env id p w
    (decide (ret ≠ 0), p1, w1)
  else (false, p, w)

/-- The condition of the pipe-opening `if`, with its short-circuit evaluation. -/
def openRedirectPipes (env : Env) (a : Args) (p : Pipes) (w : World) : Bool × Pipes × World :=
  let (c1, p1, w1) := redirectPipe env a.redirectStdin .stdinPipe p w
  if c1 then (true, p1, w1)
  else
    let (c2, p2, w2) := redirectPipe env a.redirectStdout .stdoutPipe p1 w1
    if c2 then (true, p2, w2)
    else redirectPipe env a.redirectStderr .stderrPipe p2 w2

/-- The `do ... while (bytesRead == -1 && errno == EINTR)` loop; `k` reads have
been made before, and `none` means the fuel ran out. -/
def readLoop (env : Env) (fd : Int) : Nat → Nat → World → Option World
  | 0, _, _ => none
  | fuel + 1, k, w =>
    let (bytesRead, w1) := read env k fd w
    if bytesRead = -1 ∧ w1.errno = EINTR then readLoop env fd fuel (k + 1) w1
    else some w1

/-- The stores of the failure block, in order; a store through a null pointer
ends the run. -/
def storeFailure (a : Args) (w : World) : Outcome :=
  if !a.stdinFd then .nullWrite w
  else
    let w1 := { w with stdinFd := some (-1) }
    if !a.stdoutFd then .nullWrite w1
    else
      let w2 := { w1 with stdoutFd := some (-1) }
      if !a.stderrFd then .nullWrite w2
      else
        let w3 := { w2 with stderrFd := some (-1) }
        if !a.childPid then .nullWrite w3
        else .returned (-1) { w3 with childPid := some (-1) }

/-- The code from the label `done` to the end of the function. -/
def done (env : Env) (a : Args) (success : Bool) (p : Pipes) (fuel : Nat) (w : World) :
    Option Outcome :=
  let w1 := CloseIfOpen env p.stdinFds.readEnd w
  let w2 := CloseIfOpen env p.stdoutFds.writeEnd w1
  let w3 := CloseIfOpen env p.stderrFds.writeEnd w2
  let w4 := CloseIfOpen env p.waitForChildToExecPipe.writeEnd w3
  let afterWait : Option World :=
    if p.waitForChildToExecPipe.readEnd ≠ -1 then
      let afterRead : Option World :=
        if success then readLoop env p.waitForChildToExecPipe.readEnd fuel 0 w4 else some w4
      afterRead.map (CloseIfOpen env p.waitForChildToExecPipe.readEnd)
    else some w4
  match afterWait with
  | none => none
  | some w5 =>
    if !success then
      let w6 := CloseIfOpen env p.stdinFds.writeEnd w5
      let w7 := CloseIfOpen env p.stdoutFds.readEnd w6
      let w8 := CloseIfOpen env p.stderrFds.readEnd w7
      some (storeFailure a w8)
    else some (.returned 0 w5)

/-- The stores of the parent branch after `fork`. -/
def storeSuccess (a : Args) (processId : Int) (p : Pipes) (w : World) : Except World World :=
  if !a.childPid then .error w
  else
    let w1 := { w with childPid := some processId }
    if !a.stdinFd then .error w1
    else
      let w2 := { w1 with stdinFd := some p.stdinFds.writeEnd }
      if !a.stdoutFd then .error w2
      else
        let w3 := { w2 with stdoutFd := some p.stdoutFds.readEnd }
        if !a.stderrFd then .error w3
        else .ok { w3 with stderrFd := some p.stderrFds.readEnd }

/-- The three `dup2` disjuncts of the child, with short-circuit evaluation. -/
def redirectDup (env : Env) (flag : Int) (oldfd : Int) (newfd : Nat) (w : World) :
    Bool × World :=
  if isTrue32 flag then
    let (ret, w1) := dup2 env oldfd newfd w
    (decide (ret = -1), w1)
  else (false, w)

def dupRedirects (env : Env) (a : Args) (p : Pipes) (w : World) : Bool × World :=
  let (c1, w1) := redirectDup env a.redirectStdin p.stdinFds.readEnd STDIN_FILENO w
  if c1 then (true, w1)
  else
    let (c2, w2) := redirectDup env a.redirectStdout p.stdoutFds.writeEnd STDOUT_FILENO w1
    if c2 then (true, w2)
    else redirectDup env a.redirectStderr p.stderrFds.writeEnd STDERR_FILENO w2

/-- The argument of `_exit`: `errno != 0 ? errno : EXIT_FAILURE`. -/
def exitStatus (errno : Int) : Int := if errno ≠ 0 then errno else EXIT_FAILURE

/-- The child branch (`processId == 0`).  In `execed w` and `execFailed _ w`
the table of `w` is the one `execve` was called with. -/
def childBranch (env : Env) (a : Args) (p : Pipes) (w : World) : Outcome :=
  let w1 := CloseIfOpen env p.stdinFds.writeEnd w
  let w2 := CloseIfOpen env p.stdoutFds.readEnd w1
  let w3 := CloseIfOpen env p.stderrFds.readEnd w2
  let (dupFailed, w4) := dupRedirects env a p w3
  if dupFailed then .exited (exitStatus w4.errno) w4
  else
    let w5 := CloseIfOpen env p.stdinFds.readEnd w4
    let w6 := CloseIfOpen env p.stdoutFds.writeEnd w5
    let w7 := CloseIfOpen env p.stderrFds.writeEnd w6
    let (chdirRet, w8) := if a.cwd then chdir env w7 else (0, w7)
    if chdirRet = -1 then .exited (exitStatus w8.errno) w8
    else
      let w9 := { w8 with trace := w8.trace ++ [.execve] }
      match env.execveErr with
      | none => .execed w9
      | some e => .execFailed (exitStatus e) { w9 with errno := e }

def noPipes : Pipes :=
  { stdinFds := ⟨-1, -1⟩, stdoutFds := ⟨-1, -1⟩, stderrFds := ⟨-1, -1⟩,
    waitForChildToExecPipe := ⟨-1, -1⟩ }

def SystemNative_ForkAndExecProcess (env : Env) (a : Args) (fuel : Nat) (w : World) :
    Option Outcome :=
  let p := noPipes
  if nullArgument a then
    done env a false p fuel { w with errno := EINVAL }
  else if badRedirect a then
    done env a false p fuel { w with errno := EINVAL }
  else
    let (pipeFailed, p1, w1) := openRedirectPipes env a p w
    if pipeFailed then done env a false p1 fuel w1
    else
      let (p2, w2) := if env.havePipe2 then (pipe2 env p1 w1).2 else (p1, w1)
      let (processId, w3) := fork env w2
      if processId = -1 then done env a false p2 fuel w3
      else if processId = 0 then some (childBranch env a p2 w3)
      else
        match storeSuccess a processId p2 w3 with
        | .error w4 => some (.nullWrite w4)
        | .ok w4 => done env a true p2 fuel w4


/-! ### Notions used to state the properties -/

/-- Closing a list of descriptors with `CloseIfOpen`, in order. -/
def closeAll (env : Env) : List Int → World → World
  | [], w => w
  | fd :: rest, w => closeAll env rest (CloseIfOpen env fd w)

/-- The `close` calls made by `closeAll`. -/
def closeEvents (l : List Int) : List Event := (l.filter (fun fd => decide (0 ≤ fd))).map Event.close

/-- Entry of the pipe arrays: the write end when `wr`, else the read end. -/
def Pipes.entry (p : Pipes) (id : PipeId) (wr : Bool) : Int :=
  if wr then (p.get id).writeEnd else (p.get id).readEnd

/-- The kernel object behind an end of a pipe. -/
def endObj (id : PipeId) (wr : Bool) : FileObj := if wr then .writeEnd id else .readEnd id

/-- Descriptors a system call of the log opened. -/
def Event.opened : Event → List Nat
  | .pipe _ (some (r, wr)) => [r, wr]
  | .pipe2 (some (r, wr)) => [r, wr]
  | _ => []

/-- Descriptors opened by the calls of a log. -/
def openedFds (trace : List Event) : List Nat := trace.flatMap Event.opened

/-- Number of `close` calls on `fd` in a log. -/
def closeCount (fd : Int) (trace : List Event) : Nat := trace.count (Event.close fd)

/-- Whether a `read` result makes the loop read again. -/
def interrupted (res : Int × Int) : Bool := decide (res.1 = -1 ∧ res.2 = EINTR)

/-- The `read` calls of a barrier loop that starts after `k` earlier reads and
stops at its `n`-th repetition. -/
def readEvents (env : Env) (fd : Int) (k n : Nat) : List Event :=
  (List.range (n + 1)).map (fun i => Event.read fd (env.readRes (k + i)).1)

/-- Whether the call asks for the pipe: the redirect flag of the stream. -/
def requested (a : Args) : PipeId → Bool
  | .stdinPipe => isTrue32 a.redirectStdin
  | .stdoutPipe => isTrue32 a.redirectStdout
  | .stderrPipe => isTrue32 a.redirectStderr
  | .execPipe => false

/-! ## Resource limits -/

def UINT64_MAX : Nat := 2 ^ 64 - 1

/-- Platform constants of `<sys/resource.h>`: the largest value of `rlim_t`
(`std::numeric_limits<rlim_t>::max()`) and `RLIM_INFINITY`. -/
structure Platform where
  rlimMax : Nat
  RLIM_INFINITY : Nat
  deriving DecidableEq

/-- Managed `RLimit`: two `uint64_t` fields. -/
structure RLimit where
  CurrentLimit : Nat
  MaximumLimit : Nat
  deriving DecidableEq

/-- Native `rlimit`: two `rlim_t` fields. -/
structure rlimit where
  rlim_cur : Nat
  rlim_max : Nat
  deriving DecidableEq

/-- Modelled from the spec: the helper `UnsignedCast` of `pal_utilities.h`, which
is not among the sources.  The resource-limit translation hands every native
value other than the unlimited one to the managed side as it is, so the helper
is the value-preserving conversion of a non-negative value to `uint64_t`. -/
def UnsignedCast (value : Nat) : Nat := value % 2 ^ 64

def ConvertFromManagedRLimitInfinityToPalIfNecessary (pf : Platform) (value : Nat) : Nat :=
  if value = UINT64_MAX ∨ value > pf.rlimMax then pf.RLIM_INFINITY
  else value % (pf.rlimMax + 1)

def ConvertFromNativeRLimitInfinityToManagedIfNecessary (pf : Platform) (value : Nat) : Nat :=
  if value = pf.RLIM_INFINITY then UINT64_MAX
  else UnsignedCast value

def ConvertFromRLimitManagedToPal (pf : Platform) (pal : RLimit) : rlimit :=
  { rlim_cur := ConvertFromManagedRLimitInfinityToPalIfNecessary pf pal.CurrentLimit
    rlim_max := ConvertFromManagedRLimitInfinityToPalIfNecessary pf pal.MaximumLimit }

def ConvertFromPalRLimitToManaged (pf : Platform) (native : rlimit) : RLimit :=
  { CurrentLimit := ConvertFromNativeRLimitInfinityToManagedIfNecessary pf native.rlim_cur
    MaximumLimit := ConvertFromNativeRLimitInfinityToManagedIfNecessary pf native.rlim_max }

/-- Linux: `rlim_t` is 64 bits wide and `RLIM_INFINITY` is its maximum. -/
def linuxPlatform : Platform := { rlimMax := 2 ^ 64 - 1, RLIM_INFINITY := 2 ^ 64 - 1 }

/-- OS X: `rlim_t` is 64 bits wide and `RLIM_INFINITY` is `2^63 - 1`. -/
def osxPlatform : Platform := { rlimMax := 2 ^ 64 - 1, RLIM_INFINITY := 2 ^ 63 - 1 }

/-- What a managed value reads back as after the set-then-get conversion. -/
def rlimitReadBack (pf : Platform) (value : Nat) : Nat :=
  if value = UINT64_MAX ∨ value > pf.rlimMax ∨ value = pf.RLIM_INFINITY then UINT64_MAX
  else value

/-! ## CPU affinity -/

/-- The set of CPUs of a `cpu_set_t`, listed. -/
abbrev cpu_set_t := List Nat

def CPU_ZERO : cpu_set_t := []

def CPU_SET (cpu : Nat) (set : cpu_set_t) : cpu_set_t := cpu :: set

def CPU_ISSET (cpu : Nat) (set : cpu_set_t) : Bool := decide (cpu ∈ set)

/-- Value of `sizeof(intptr_t) * 8` on a 64-bit target. -/
def maxCpu : Nat := 8 * 8

/-- Value of the `unsigned int` expression `1u << cpu`.  For `cpu < 32` it is
`2^cpu`; for a wider shift C++ leaves the result undefined, and `wide cpu`
stands for whatever 32-bit value the platform produces. -/
def shl1u (wide : Nat → Nat) (cpu : Nat) : Nat :=
  if cpu < 32 then (1 <<< cpu) % 2 ^ 32 else wide cpu % 2 ^ 32

/-- The x86 behaviour of an over-wide shift: the count is taken modulo 32. -/
def wideX86 (cpu : Nat) : Nat := 1 <<< (cpu % 32)

/-- The CPU set that `SystemNative_SchedSetAffinity` builds from `*mask`
(a 64-bit pattern) and hands to `sched_setaffinity`. -/
def SchedSetAffinity_set (wide : Nat → Nat) (mask : Nat) : cpu_set_t :=
  let bits := mask % 2 ^ 64
  (List.range maxCpu).foldl
    (fun set cpu => if bits &&& shl1u wide cpu ≠ 0 then CPU_SET cpu set else set) CPU_ZERO

/-- The value `SystemNative_SchedGetAffinity` stores in `*mask` when
`sched_getaffinity` succeeded and filled in `set`. -/
def SchedGetAffinity_mask (wide : Nat → Nat) (set : cpu_set_t) : Nat :=
  (List.range maxCpu).foldl
    (fun bits cpu => if CPU_ISSET cpu set then (bits ||| shl1u wide cpu) % 2 ^ 64 else bits) 0


/-- State after the pipe-opening condition was evaluated. -/
def pipesStage (env : Env) (a : Args) (w : World) : Bool × Pipes × World :=
  openRedirectPipes env a noPipes w

/-- State after the `pipe2` call, when the build has one. -/
def pipe2Stage (env : Env) (a : Args) (w : World) : Pipes × World :=
  if env.havePipe2 then (pipe2 env (pipesStage env a w).2.1 (pipesStage env a w).2.2).2
  else (pipesStage env a w).2

/-- State after `fork`. -/
def forkStage (env : Env) (a : Args) (w : World) : World :=
  (fork env (pipe2Stage env a w).2).2

/-- The parent's state after the four stores that follow `fork`. -/
def boundStage (env : Env) (a : Args) (w : World) : World :=
  { forkStage env a w with
    childPid := some env.forkRet
    stdinFd := some (pipe2Stage env a w).1.stdinFds.writeEnd
    stdoutFd := some (pipe2Stage env a w).1.stdoutFds.readEnd
    stderrFd := some (pipe2Stage env a w).1.stderrFds.readEnd }

/-- The descriptors the failure path closes, in order. -/
def failureCloses (p : Pipes) : List Int :=
  [p.stdinFds.readEnd, p.stdoutFds.writeEnd, p.stderrFds.writeEnd,
    p.waitForChildToExecPipe.writeEnd, p.waitForChildToExecPipe.readEnd,
    p.stdinFds.writeEnd, p.stdoutFds.readEnd, p.stderrFds.readEnd]

/-- The descriptors the success path closes before the barrier read. -/
def successCloses (p : Pipes) : List Int :=
  [p.stdinFds.readEnd, p.stdoutFds.writeEnd, p.stderrFds.writeEnd,
    p.waitForChildToExecPipe.writeEnd]

/-! ### Sample inputs -/

def quietEnv : Env :=
  { havePipe2 := true, pipeErr := fun _ => none, forkRet := 4242, forkErr := 11,
    closeErr := fun _ => none, readRes := fun _ => (0, 0), dup2Err := fun _ => none,
    chdirErr := none, execveErr := none }

/-- An environment in which `fork` fails with `EAGAIN` and every `close` reports `EIO`. -/
def forkFailEnv : Env :=
  { quietEnv with forkRet := -1, closeErr := fun _ => some 5 }

def stdWorld : World :=
  { fds := [some (.inherited 0), some (.inherited 1), some (.inherited 2)], errno := 0,
    trace := [], childPid := none, stdinFd := none, stdoutFd := none, stderrFd := none }

def allArgs : Args :=
  { filename := true, argv := true, envp := true, cwd := false,
    redirectStdin := 1, redirectStdout := 1, redirectStderr := 1,
    childPid := true, stdinFd := true, stdoutFd := true, stderrFd := true }

/-- The world of an outcome. -/
def Outcome.world : Outcome → World
  | .returned _ w => w
  | .nullWrite w => w
  | .execed w => w
  | .execFailed _ w => w
  | .exited _ w => w

/-- The world a run ends in (`w` itself when the fuel ran out). -/
def finalWorld (env : Env) (a : Args) (fuel : Nat) (w : World) : World :=
  match SystemNative_ForkAndExecProcess env a fuel w with
  | some o => o.world
  | none => w

/-- The pipe `id` has been opened: its array holds two descriptor numbers. -/
def Opened (p : Pipes) (id : PipeId) : Prop := ∃ r wr : Nat, p.get id = ⟨r, wr⟩

/-- The pipe `id` has not been opened: its array still holds `{-1, -1}`. -/
def Unopened (p : Pipes) (id : PipeId) : Prop := p.get id = ⟨-1, -1⟩

/-- How the pipe arrays `p` and the state `w` relate to the state `w0` at entry,
up to `fork`: every array entry is `-1` or a descriptor that was free at entry
and now refers to its end of its pipe, every other descriptor is as at entry,
the log opened exactly the descriptors in the arrays and closed nothing, and
the output cells are untouched. -/
structure Tracks (w0 : World) (p : Pipes) (w : World) : Prop where
  entries : ∀ id wr, p.entry id wr = -1 ∨ ∃ n : Nat, p.entry id wr = n
    ∧ w.fds.lookup n = some (endObj id wr) ∧ w0.fds.lookup n = none
  others : ∀ fd : Nat, (∀ id wr, p.entry id wr ≠ fd) → w.fds.lookup fd = w0.fds.lookup fd
  opened : ∀ fd : Nat, fd ∈ openedFds w.trace ↔ ∃ id wr, p.entry id wr = fd
  quiet : ∀ e ∈ w.trace, (∀ fd, e ≠ Event.close fd) ∧ (∀ fd r, e ≠ Event.read fd r)
  outs : w.childPid = w0.childPid ∧ w.stdinFd = w0.stdinFd ∧ w.stdoutFd = w0.stdoutFd
    ∧ w.stderrFd = w0.stderrFd

/-- A world differing from `stdWorld` in `errno` only. -/
def staleErrnoWorld : World := { stdWorld with errno := 2 }

/-- An environment in which `pipe(stdoutFds)` fails with `EMFILE`. -/
def pipeFailEnv : Env :=
  { quietEnv with pipeErr := fun id => if id = .stdoutPipe then some 24 else none
                  closeErr := fun _ => some 5 }

/-- The array entries the failure path closes, in the order of `failureCloses`. -/
def failureSlots : List (PipeId × Bool) :=
  [(.stdinPipe, false), (.stdoutPipe, true), (.stderrPipe, true), (.execPipe, true),
    (.execPipe, false), (.stdinPipe, true), (.stdoutPipe, false), (.stderrPipe, false)]

/-- The array entries the success path closes. -/
def successSlots : List (PipeId × Bool) :=
  [(.stdinPipe, false), (.stdoutPipe, true), (.stderrPipe, true), (.execPipe, true),
    (.execPipe, false)]

/-- The array entries handed to the caller on success. -/
def handedSlots : List (PipeId × Bool) :=
  [(.stdinPipe, true), (.stdoutPipe, false), (.stderrPipe, false)]

/-- The descriptor `fd` is one of the three descriptor outputs. -/
def handed (w : World) (fd : Nat) : Prop :=
  w.stdinFd = some (fd : Int) ∨ w.stdoutFd = some (fd : Int) ∨ w.stderrFd = some (fd : Int)

/-- Whether a logged call is a `read`. -/
def Event.isRead : Event → Bool
  | .read _ _ => true
  | _ => false

/-- An environment whose barrier read is interrupted twice before it sees the
end of file. -/
def interruptedEnv : Env :=
  { quietEnv with readRes := fun k => if k < 2 then (-1, 4) else (0, 0) }

/-- A parent whose standard input is closed. -/
def stdinClosedWorld : World :=
  { stdWorld with fds := [none, some (.inherited 1), some (.inherited 2)] }

/-- A parent whose standard output is closed. -/
def stdoutClosedWorld : World :=
  { stdWorld with fds := [some (.inherited 0), none, some (.inherited 2)] }

/-- The environment seen by the child: `fork` returns `0`. -/
def childEnv : Env := { quietEnv with forkRet := 0 }

def stdinOnlyArgs : Args := { allArgs with redirectStdout := 0, redirectStderr := 0 }

def stdinStdoutArgs : Args := { allArgs with redirectStderr := 0 }
/-! ## Resource limits and CPU affinity: proofs -/

theorem readBack_eq (pf : Platform) (v : Nat) (hv : v < 2 ^ 64) :
    ConvertFromNativeRLimitInfinityToManagedIfNecessary pf
      (ConvertFromManagedRLimitInfinityToPalIfNecessary pf v) = rlimitReadBack pf v := by
  unfold ConvertFromNativeRLimitInfinityToManagedIfNecessary
    ConvertFromManagedRLimitInfinityToPalIfNecessary rlimitReadBack UnsignedCast
  by_cases h1 : v = UINT64_MAX ∨ v > pf.rlimMax
  · have : v = UINT64_MAX ∨ v > pf.rlimMax ∨ v = pf.RLIM_INFINITY := by tauto
    simp [h1, this]
  · have hle : v < pf.rlimMax + 1 := by
      have : ¬ v > pf.rlimMax := fun h => h1 (Or.inr h)
      omega
    rw [if_neg h1, Nat.mod_eq_of_lt hle]
    by_cases h2 : v = pf.RLIM_INFINITY
    · have : v = UINT64_MAX ∨ v > pf.rlimMax ∨ v = pf.RLIM_INFINITY := by tauto
      simp [h2, this]
    · have : ¬ (v = UINT64_MAX ∨ v > pf.rlimMax ∨ v = pf.RLIM_INFINITY) := by tauto
      rw [if_neg h2, if_neg this, Nat.mod_eq_of_lt hv]

/-- C7 (as the code behaves): for every managed pair of `uint64_t` values,
converting to the native pair and back returns a component unchanged when it
is `UINT64_MAX` or when it is at most the maximum of `rlim_t` and differs from
`RLIM_INFINITY`, and returns `UINT64_MAX` for every other component; the
sentinel `UINT64_MAX` maps to `RLIM_INFINITY` and `RLIM_INFINITY` back to
`UINT64_MAX`; where the maximum of `rlim_t` and `RLIM_INFINITY` both equal
`UINT64_MAX` the round trip returns the pair it was given. -/
theorem rlimit_round_trip (pf : Platform) (pal : RLimit)
    (hc : pal.CurrentLimit < 2 ^ 64) (hm : pal.MaximumLimit < 2 ^ 64) :
    ((pal.CurrentLimit = UINT64_MAX
        ∨ (pal.CurrentLimit ≤ pf.rlimMax ∧ pal.CurrentLimit ≠ pf.RLIM_INFINITY)) →
      (ConvertFromPalRLimitToManaged pf (ConvertFromRLimitManagedToPal pf pal)).CurrentLimit
        = pal.CurrentLimit)
    ∧ (¬ (pal.CurrentLimit = UINT64_MAX
        ∨ (pal.CurrentLimit ≤ pf.rlimMax ∧ pal.CurrentLimit ≠ pf.RLIM_INFINITY)) →
      (ConvertFromPalRLimitToManaged pf (ConvertFromRLimitManagedToPal pf pal)).CurrentLimit
        = UINT64_MAX)
    ∧ ((pal.MaximumLimit = UINT64_MAX
        ∨ (pal.MaximumLimit ≤ pf.rlimMax ∧ pal.MaximumLimit ≠ pf.RLIM_INFINITY)) →
      (ConvertFromPalRLimitToManaged pf (ConvertFromRLimitManagedToPal pf pal)).MaximumLimit
        = pal.MaximumLimit)
    ∧ (¬ (pal.MaximumLimit = UINT64_MAX
        ∨ (pal.MaximumLimit ≤ pf.rlimMax ∧ pal.MaximumLimit ≠ pf.RLIM_INFINITY)) →
      (ConvertFromPalRLimitToManaged pf (ConvertFromRLimitManagedToPal pf pal)).MaximumLimit
        = UINT64_MAX)
    ∧ ConvertFromManagedRLimitInfinityToPalIfNecessary pf UINT64_MAX = pf.RLIM_INFINITY
    ∧ ConvertFromNativeRLimitInfinityToManagedIfNecessary pf pf.RLIM_INFINITY = UINT64_MAX
    ∧ (pf.rlimMax = UINT64_MAX → pf.RLIM_INFINITY = UINT64_MAX →
        ConvertFromPalRLimitToManaged pf (ConvertFromRLimitManagedToPal pf pal) = pal) := by
  have key : ∀ v, v < 2 ^ 64 →
      ((v = UINT64_MAX ∨ (v ≤ pf.rlimMax ∧ v ≠ pf.RLIM_INFINITY)) → rlimitReadBack pf v = v)
      ∧ (¬ (v = UINT64_MAX ∨ (v ≤ pf.rlimMax ∧ v ≠ pf.RLIM_INFINITY)) →
          rlimitReadBack pf v = UINT64_MAX) := by
    intro v _
    unfold rlimitReadBack
    constructor
    · rintro (h | ⟨h1, h2⟩)
      · simp [h]
      · by_cases h3 : v = UINT64_MAX
        · simp [h3]
        · have : ¬ (v = UINT64_MAX ∨ v > pf.rlimMax ∨ v = pf.RLIM_INFINITY) := by
            rintro (h4 | h4 | h4)
            · exact h3 h4
            · omega
            · exact h2 h4
          rw [if_neg this]
    · intro h
      have : v = UINT64_MAX ∨ v > pf.rlimMax ∨ v = pf.RLIM_INFINITY := by
        by_contra hc2
        apply h
        right
        constructor
        · by_contra h5
          exact hc2 (Or.inr (Or.inl (by omega)))
        · intro h5
          exact hc2 (Or.inr (Or.inr h5))
      rw [if_pos this]
  have e1 : (ConvertFromPalRLimitToManaged pf (ConvertFromRLimitManagedToPal pf pal)).CurrentLimit
      = rlimitReadBack pf pal.CurrentLimit := readBack_eq pf _ hc
  have e2 : (ConvertFromPalRLimitToManaged pf (ConvertFromRLimitManagedToPal pf pal)).MaximumLimit
      = rlimitReadBack pf pal.MaximumLimit := readBack_eq pf _ hm
  rw [e1, e2]
  refine ⟨(key _ hc).1, (key _ hc).2, (key _ hm).1, (key _ hm).2, ?_, ?_, ?_⟩
  · simp [ConvertFromManagedRLimitInfinityToPalIfNecessary]
  · simp [ConvertFromNativeRLimitInfinityToManagedIfNecessary]
  · intro h1 h2
    have g : ∀ v, v < 2 ^ 64 → rlimitReadBack pf v = v := by
      intro v hv
      unfold rlimitReadBack
      rw [h1, h2]
      unfold UINT64_MAX
      split
      · rename_i h3
        rcases h3 with h3 | h3 | h3 <;> omega
      · rfl
    have e3 : ConvertFromPalRLimitToManaged pf (ConvertFromRLimitManagedToPal pf pal)
        = { CurrentLimit := rlimitReadBack pf pal.CurrentLimit
            MaximumLimit := rlimitReadBack pf pal.MaximumLimit } := by
      simp only [ConvertFromPalRLimitToManaged, ConvertFromRLimitManagedToPal,
        readBack_eq pf _ hc, readBack_eq pf _ hm]
    rw [e3, g _ hc, g _ hm]

theorem rlimit_round_trip_witness :
    (((1024 : Nat) = UINT64_MAX
        ∨ ((1024 : Nat) ≤ osxPlatform.rlimMax ∧ (1024 : Nat) ≠ osxPlatform.RLIM_INFINITY)) →
      (ConvertFromPalRLimitToManaged osxPlatform
        (ConvertFromRLimitManagedToPal osxPlatform ⟨1024, 2 ^ 63 - 1⟩)).CurrentLimit = 1024)
    ∧ (¬ ((1024 : Nat) = UINT64_MAX
        ∨ ((1024 : Nat) ≤ osxPlatform.rlimMax ∧ (1024 : Nat) ≠ osxPlatform.RLIM_INFINITY)) →
      (ConvertFromPalRLimitToManaged osxPlatform
        (ConvertFromRLimitManagedToPal osxPlatform ⟨1024, 2 ^ 63 - 1⟩)).CurrentLimit
        = UINT64_MAX)
    ∧ (((2 ^ 63 - 1 : Nat) = UINT64_MAX
        ∨ ((2 ^ 63 - 1 : Nat) ≤ osxPlatform.rlimMax
          ∧ (2 ^ 63 - 1 : Nat) ≠ osxPlatform.RLIM_INFINITY)) →
      (ConvertFromPalRLimitToManaged osxPlatform
        (ConvertFromRLimitManagedToPal osxPlatform ⟨1024, 2 ^ 63 - 1⟩)).MaximumLimit
        = 2 ^ 63 - 1)
    ∧ (¬ ((2 ^ 63 - 1 : Nat) = UINT64_MAX
        ∨ ((2 ^ 63 - 1 : Nat) ≤ osxPlatform.rlimMax
          ∧ (2 ^ 63 - 1 : Nat) ≠ osxPlatform.RLIM_INFINITY)) →
      (ConvertFromPalRLimitToManaged osxPlatform
        (ConvertFromRLimitManagedToPal osxPlatform ⟨1024, 2 ^ 63 - 1⟩)).MaximumLimit
        = UINT64_MAX)
    ∧ ConvertFromManagedRLimitInfinityToPalIfNecessary osxPlatform UINT64_MAX
        = osxPlatform.RLIM_INFINITY
    ∧ ConvertFromNativeRLimitInfinityToManagedIfNecessary osxPlatform osxPlatform.RLIM_INFINITY
        = UINT64_MAX
    ∧ (osxPlatform.rlimMax = UINT64_MAX → osxPlatform.RLIM_INFINITY = UINT64_MAX →
        ConvertFromPalRLimitToManaged osxPlatform
          (ConvertFromRLimitManagedToPal osxPlatform ⟨1024, 2 ^ 63 - 1⟩)
          = ⟨1024, 2 ^ 63 - 1⟩) :=
  rlimit_round_trip osxPlatform ⟨1024, 2 ^ 63 - 1⟩ (by decide) (by decide)

/-- C7 (the claim as stated fails): with the constants of OS X, where
`RLIM_INFINITY` is `2^63 - 1`, the managed pair `(2^63 - 1, 2^63 - 1)` reads
back as `(UINT64_MAX, UINT64_MAX)`. -/
theorem rlimit_round_trip_fails_osx :
    ConvertFromPalRLimitToManaged osxPlatform
        (ConvertFromRLimitManagedToPal osxPlatform ⟨2 ^ 63 - 1, 2 ^ 63 - 1⟩)
      = ⟨UINT64_MAX, UINT64_MAX⟩
    ∧ ConvertFromPalRLimitToManaged osxPlatform
        (ConvertFromRLimitManagedToPal osxPlatform ⟨2 ^ 63 - 1, 2 ^ 63 - 1⟩)
      ≠ ⟨2 ^ 63 - 1, 2 ^ 63 - 1⟩ := by
  decide

theorem shl1u_lt (wide : Nat → Nat) (cpu : Nat) : shl1u wide cpu < 2 ^ 32 := by
  unfold shl1u
  split <;> exact Nat.mod_lt _ (by norm_num)

theorem shl1u_of_lt (wide : Nat → Nat) (cpu : Nat) (h : cpu < 32) : shl1u wide cpu = 2 ^ cpu := by
  unfold shl1u
  rw [if_pos h, Nat.one_shiftLeft]
  exact Nat.mod_eq_of_lt (Nat.pow_lt_pow_right (by norm_num) h)

theorem mem_setLoop (wide : Nat → Nat) (bits : Nat) (n i : Nat) :
    i ∈ (List.range n).foldl
        (fun set cpu => if bits &&& shl1u wide cpu ≠ 0 then CPU_SET cpu set else set) CPU_ZERO
      ↔ i < n ∧ bits &&& shl1u wide i ≠ 0 := by
  induction n with
  | zero => simp [CPU_ZERO]
  | succ n ih =>
    rw [List.range_succ, List.foldl_append]
    simp only [List.foldl_cons, List.foldl_nil]
    by_cases h : bits &&& shl1u wide n ≠ 0
    · rw [if_pos h]
      rw [show ∀ (c : Nat) (l : cpu_set_t), CPU_SET c l = c :: l from fun _ _ => rfl,
        List.mem_cons, ih]
      constructor
      · rintro (rfl | ⟨h1, h2⟩)
        · exact ⟨Nat.lt_succ_self _, h⟩
        · exact ⟨Nat.lt_succ_of_lt h1, h2⟩
      · rintro ⟨h1, h2⟩
        rcases Nat.lt_succ_iff_lt_or_eq.mp h1 with h3 | h3
        · exact Or.inr ⟨h3, h2⟩
        · exact Or.inl h3
    · rw [if_neg h, ih]
      constructor
      · rintro ⟨h1, h2⟩
        exact ⟨Nat.lt_succ_of_lt h1, h2⟩
      · rintro ⟨h1, h2⟩
        rcases Nat.lt_succ_iff_lt_or_eq.mp h1 with h3 | h3
        · exact ⟨h3, h2⟩
        · subst h3; exact absurd h2 h

theorem mem_SchedSetAffinity_set (wide : Nat → Nat) (mask i : Nat) :
    i ∈ SchedSetAffinity_set wide mask ↔ i < 64 ∧ (mask % 2 ^ 64) &&& shl1u wide i ≠ 0 := by
  unfold SchedSetAffinity_set
  exact mem_setLoop wide _ maxCpu i

theorem getLoop_lt (wide : Nat → Nat) (set : cpu_set_t) (n : Nat) :
    (List.range n).foldl
      (fun bits cpu => if CPU_ISSET cpu set then (bits ||| shl1u wide cpu) % 2 ^ 64 else bits) 0
      < 2 ^ 32 := by
  induction n with
  | zero => simp
  | succ n ih =>
    rw [List.range_succ, List.foldl_append]
    simp only [List.foldl_cons, List.foldl_nil]
    split
    · have h := Nat.or_lt_two_pow ih (shl1u_lt wide n)
      have h2 : (2:Nat) ^ 32 < 2 ^ 64 := by norm_num
      rw [Nat.mod_eq_of_lt (lt_trans h h2)]
      exact h
    · exact ih

/-- C8 (the code at mask `2^32`, CPU 32): whatever 32-bit value the platform
gives `1u << cpu` for `cpu >= 32`, bit 32 of the mask is set but CPU 32 is not
in the set passed to `sched_setaffinity`, and for a CPU set holding CPU 32 the
mask written by `SystemNative_SchedGetAffinity` has bit 32 clear; with the x86
shift (count modulo 32) the mask `1` selects CPU 32 besides CPU 0. -/
theorem affinity_misses_cpu32 (wide : Nat → Nat) :
    Nat.testBit (2 ^ 32) 32 = true
    ∧ 32 ∉ SchedSetAffinity_set wide (2 ^ 32)
    ∧ CPU_ISSET 32 [32] = true
    ∧ Nat.testBit (SchedGetAffinity_mask wide [32]) 32 = false
    ∧ Nat.testBit 1 32 = false
    ∧ 32 ∈ SchedSetAffinity_set wideX86 1 := by
  refine ⟨Nat.testBit_two_pow_self, ?_, by decide, ?_, by decide, by decide⟩
  · rw [mem_SchedSetAffinity_set]
    rintro ⟨_, h⟩
    apply h
    have h1 : (2:Nat) ^ 32 % 2 ^ 64 = 2 ^ 32 := by norm_num
    rw [h1, Nat.two_pow_and, Nat.testBit_lt_two_pow (shl1u_lt wide 32)]
    rfl
  · exact Nat.testBit_lt_two_pow (getLoop_lt wide [32] maxCpu)

/-- For CPUs 0 to 31 the set built from a mask holds CPU `i` exactly when bit
`i` of the mask is set. -/
theorem affinity_set_low (wide : Nat → Nat) (mask i : Nat) (hm : mask < 2 ^ 64) (hi : i < 32) :
    i ∈ SchedSetAffinity_set wide mask ↔ mask.testBit i = true := by
  rw [mem_SchedSetAffinity_set, Nat.mod_eq_of_lt hm, shl1u_of_lt wide i hi, Nat.and_two_pow]
  have : i < 64 := by omega
  cases mask.testBit i <;> simp [this]


/-! ## The descriptor table -/

theorem lookup_assign (t : FdTable) (fd x : Nat) (o : Option FileObj) :
    (t.assign fd o).lookup x = if x = fd then o else t.lookup x := by
  unfold FdTable.assign FdTable.lookup
  simp only [List.get?_eq_getElem?]
  by_cases h : fd < t.length
  · rw [if_pos h, List.getElem?_set]
    by_cases hx : x = fd
    · subst hx; simp [h]
    · have : ¬ fd = x := fun e => hx e.symm
      simp [hx, this]
  · rw [if_neg h]
    have hle : t.length ≤ fd := Nat.le_of_not_lt h
    by_cases hx : x = fd
    · subst hx
      rw [if_pos rfl, List.getElem?_append_right (by simp; omega)]
      have : x - (t ++ List.replicate (x - t.length) none).length = 0 := by simp; omega
      rw [this]
      simp
    · rw [if_neg hx]
      by_cases hlt : x < t.length
      · rw [List.append_assoc, List.getElem?_append_left hlt]
      · have hle2 : t.length ≤ x := Nat.le_of_not_lt hlt
        rw [List.getElem?_eq_none hle2]
        by_cases hlt2 : x < fd
        · rw [List.getElem?_append_left (by simp; omega),
            List.getElem?_append_right hle2, List.getElem?_replicate]
          simp
        · rw [List.getElem?_eq_none (by simp; omega)]

theorem lookup_lowestFree (t : FdTable) : t.lookup t.lowestFree = none := by
  unfold FdTable.lookup FdTable.lowestFree
  simp only [List.get?_eq_getElem?]
  by_cases h : List.findIdx (fun o : Option FileObj => o.isNone) t < t.length
  · have h2 := List.findIdx_getElem (w := h)
    rw [List.getElem?_eq_getElem h]
    simp only [Option.isNone_iff_eq_none] at h2
    simp [h2]
  · rw [List.getElem?_eq_none (Nat.le_of_not_lt h)]
    rfl


/-! ## Closing descriptors -/

theorem CloseIfOpen_errno (env : Env) (fd : Int) (w : World) :
    (CloseIfOpen env fd w).errno = w.errno := by
  unfold CloseIfOpen
  split <;> rfl

theorem CloseIfOpen_outs (env : Env) (fd : Int) (w : World) :
    (CloseIfOpen env fd w).childPid = w.childPid ∧ (CloseIfOpen env fd w).stdinFd = w.stdinFd
    ∧ (CloseIfOpen env fd w).stdoutFd = w.stdoutFd
    ∧ (CloseIfOpen env fd w).stderrFd = w.stderrFd := by
  unfold CloseIfOpen close
  split
  · split <;> exact ⟨rfl, rfl, rfl, rfl⟩
  · exact ⟨rfl, rfl, rfl, rfl⟩

theorem CloseIfOpen_trace (env : Env) (fd : Int) (w : World) :
    (CloseIfOpen env fd w).trace = w.trace ++ closeEvents [fd] := by
  unfold CloseIfOpen close closeEvents
  by_cases h : fd ≥ 0
  · have h2 : (0 : Int) ≤ fd := h
    rw [if_pos h]
    split <;> simp [h2]
  · have h2 : ¬ (0 : Int) ≤ fd := h
    rw [if_neg h]
    simp [h2]

theorem CloseIfOpen_lookup (env : Env) (fd : Int) (w : World) (x : Nat) :
    (CloseIfOpen env fd w).fds.lookup x = if (x : Int) = fd then none else w.fds.lookup x := by
  unfold CloseIfOpen close
  by_cases h : fd ≥ 0
  · rw [if_pos h]
    by_cases h2 : fd < 0 ∨ w.fds.lookup fd.toNat = none
    · simp only [if_pos h2]
      split
      · rename_i hx
        have : fd.toNat = x := by omega
        rcases h2 with h2 | h2
        · omega
        · rw [← this]; exact h2
      · rfl
    · simp only [if_neg h2, lookup_assign]
      have : (x = fd.toNat) ↔ ((x : Int) = fd) := by omega
      simp only [this]
  · rw [if_neg h]
    have : ¬ ((x : Int) = fd) := by omega
    rw [if_neg this]

theorem closeAll_errno (env : Env) (l : List Int) (w : World) :
    (closeAll env l w).errno = w.errno := by
  induction l generalizing w with
  | nil => rfl
  | cons fd rest ih => rw [closeAll, ih, CloseIfOpen_errno]

theorem closeAll_outs (env : Env) (l : List Int) (w : World) :
    (closeAll env l w).childPid = w.childPid ∧ (closeAll env l w).stdinFd = w.stdinFd
    ∧ (closeAll env l w).stdoutFd = w.stdoutFd ∧ (closeAll env l w).stderrFd = w.stderrFd := by
  induction l generalizing w with
  | nil => exact ⟨rfl, rfl, rfl, rfl⟩
  | cons fd rest ih =>
    rw [closeAll]
    obtain ⟨h1, h2, h3, h4⟩ := ih (CloseIfOpen env fd w)
    obtain ⟨g1, g2, g3, g4⟩ := CloseIfOpen_outs env fd w
    exact ⟨h1.trans g1, h2.trans g2, h3.trans g3, h4.trans g4⟩

theorem closeEvents_cons (fd : Int) (l : List Int) :
    closeEvents (fd :: l) = closeEvents [fd] ++ closeEvents l := by
  unfold closeEvents
  by_cases h : (0 : Int) ≤ fd <;> simp [List.filter_cons, h]

theorem closeAll_trace (env : Env) (l : List Int) (w : World) :
    (closeAll env l w).trace = w.trace ++ closeEvents l := by
  induction l generalizing w with
  | nil => simp [closeAll, closeEvents]
  | cons fd rest ih =>
    rw [closeAll, ih, CloseIfOpen_trace, closeEvents_cons fd rest, List.append_assoc]

theorem closeAll_lookup (env : Env) (l : List Int) (w : World) (x : Nat) :
    (closeAll env l w).fds.lookup x = if (x : Int) ∈ l then none else w.fds.lookup x := by
  induction l generalizing w with
  | nil => simp [closeAll]
  | cons fd rest ih =>
    rw [closeAll, ih, CloseIfOpen_lookup]
    by_cases h1 : (x : Int) ∈ rest
    · simp [h1]
    · by_cases h2 : (x : Int) = fd
      · simp [h2]
      · simp [h1, h2]

/-- The failure path from `done` on: eight `CloseIfOpen` calls, then the stores. -/
theorem done_failure (env : Env) (a : Args) (p : Pipes) (fuel : Nat) (w : World) :
    done env a false p fuel w = some (storeFailure a (closeAll env
      [p.stdinFds.readEnd, p.stdoutFds.writeEnd, p.stderrFds.writeEnd,
        p.waitForChildToExecPipe.writeEnd, p.waitForChildToExecPipe.readEnd,
        p.stdinFds.writeEnd, p.stdoutFds.readEnd, p.stderrFds.readEnd] w)) := by
  unfold done
  by_cases h : p.waitForChildToExecPipe.readEnd = -1
  · have hc : ∀ w', CloseIfOpen env (-1) w' = w' := fun _ => rfl
    simp [h, closeAll, hc]
  · simp [h, closeAll]

/-- The success path from `done` on. -/
theorem done_success (env : Env) (a : Args) (p : Pipes) (fuel : Nat) (w : World) :
    done env a true p fuel w =
      if p.waitForChildToExecPipe.readEnd ≠ -1 then
        (readLoop env p.waitForChildToExecPipe.readEnd fuel 0 (closeAll env
          [p.stdinFds.readEnd, p.stdoutFds.writeEnd, p.stderrFds.writeEnd,
            p.waitForChildToExecPipe.writeEnd] w)).map
          (fun w5 => Outcome.returned 0 (CloseIfOpen env p.waitForChildToExecPipe.readEnd w5))
      else
        some (Outcome.returned 0 (closeAll env
          [p.stdinFds.readEnd, p.stdoutFds.writeEnd, p.stderrFds.writeEnd,
            p.waitForChildToExecPipe.writeEnd] w)) := by
  unfold done
  by_cases h : p.waitForChildToExecPipe.readEnd = -1
  · simp [h, closeAll]
  · simp only [closeAll, ne_eq, h, not_false_eq_true, if_true]
    cases readLoop env p.waitForChildToExecPipe.readEnd fuel 0
      (CloseIfOpen env p.waitForChildToExecPipe.writeEnd
        (CloseIfOpen env p.stderrFds.writeEnd
          (CloseIfOpen env p.stdoutFds.writeEnd (CloseIfOpen env p.stdinFds.readEnd w)))) <;> simp



/-! ## The shape of a run -/

theorem done_failure_eq (env : Env) (a : Args) (p : Pipes) (fuel : Nat) (w : World) :
    done env a false p fuel w = some (storeFailure a (closeAll env (failureCloses p) w)) :=
  done_failure env a p fuel w

theorem closeAll_noPipes (env : Env) (w : World) :
    closeAll env (failureCloses noPipes) w = w := rfl

theorem storeSuccess_ok (a : Args) (pid : Int) (p : Pipes) (w : World)
    (h : nullArgument a = false) :
    storeSuccess a pid p w = .ok { w with
      childPid := some pid, stdinFd := some p.stdinFds.writeEnd,
      stdoutFd := some p.stdoutFds.readEnd, stderrFd := some p.stderrFds.readEnd } := by
  unfold nullArgument at h
  simp only [Bool.or_eq_false_iff, Bool.not_eq_false'] at h
  obtain ⟨⟨⟨⟨⟨⟨_, _⟩, _⟩, h4⟩, h5⟩, h6⟩, h7⟩ := h
  simp [storeSuccess, h4, h5, h6, h7]

/-- The function, path by path. -/
theorem run_eq (env : Env) (a : Args) (fuel : Nat) (w : World) :
    SystemNative_ForkAndExecProcess env a fuel w =
      if nullArgument a = true ∨ badRedirect a = true then
        some (storeFailure a { w with errno := EINVAL })
      else if (pipesStage env a w).1 = true then
        some (storeFailure a (closeAll env (failureCloses (pipesStage env a w).2.1)
          (pipesStage env a w).2.2))
      else if env.forkRet = -1 then
        some (storeFailure a (closeAll env (failureCloses (pipe2Stage env a w).1)
          (forkStage env a w)))
      else if env.forkRet = 0 then
        some (childBranch env a (pipe2Stage env a w).1 (forkStage env a w))
      else done env a true (pipe2Stage env a w).1 fuel (boundStage env a w) := by
  unfold SystemNative_ForkAndExecProcess
  by_cases h1 : nullArgument a = true
  · simp only [h1, if_true, true_or, done_failure_eq, closeAll_noPipes]
  · have h1f : nullArgument a = false := by simpa using h1
    by_cases h2 : badRedirect a = true
    · simp only [h1f, h2, or_true, if_true, done_failure_eq, closeAll_noPipes]
      simp
    · have h2f : badRedirect a = false := by simpa using h2
      simp only [h1f, h2f, Bool.false_eq_true, if_false, or_self]
      by_cases h3 : (pipesStage env a w).1 = true
      · have h3b : (openRedirectPipes env a noPipes w).1 = true := h3
        simp only [h3, h3b, if_true, done_failure_eq]
        rfl
      · have h3b : (openRedirectPipes env a noPipes w).1 = false := by
          simpa [pipesStage] using h3
        simp only [h3, h3b, Bool.false_eq_true, if_false]
        by_cases h4 : env.forkRet = -1
        · have h4b : (fork env (if env.havePipe2 = true then
              (pipe2 env (openRedirectPipes env a noPipes w).2.1
                (openRedirectPipes env a noPipes w).2.2).2
              else ((openRedirectPipes env a noPipes w).2.1,
                (openRedirectPipes env a noPipes w).2.2)).2).1 = -1 := h4
          simp only [h4, h4b, if_true, done_failure_eq]
          rfl
        · have h4b : ¬ (fork env (if env.havePipe2 = true then
              (pipe2 env (openRedirectPipes env a noPipes w).2.1
                (openRedirectPipes env a noPipes w).2.2).2
              else ((openRedirectPipes env a noPipes w).2.1,
                (openRedirectPipes env a noPipes w).2.2)).2).1 = -1 := h4
          simp only [h4, h4b, if_false]
          by_cases h5 : env.forkRet = 0
          · have h5b : (fork env (if env.havePipe2 = true then
                (pipe2 env (openRedirectPipes env a noPipes w).2.1
                  (openRedirectPipes env a noPipes w).2.2).2
                else ((openRedirectPipes env a noPipes w).2.1,
                  (openRedirectPipes env a noPipes w).2.2)).2).1 = 0 := h5
            simp only [h5, h5b, if_true]
            rfl
          · have h5b : ¬ (fork env (if env.havePipe2 = true then
                (pipe2 env (openRedirectPipes env a noPipes w).2.1
                  (openRedirectPipes env a noPipes w).2.2).2
                else ((openRedirectPipes env a noPipes w).2.1,
                  (openRedirectPipes env a noPipes w).2.2)).2).1 = 0 := h5
            simp only [h5, h5b, if_false, storeSuccess_ok a _ _ _ h1f]
            rfl

/-! ## Outcomes of the stores, of the child and of `done` -/

theorem storeFailure_returned (a : Args) (w : World) (ret : Int) (w' : World)
    (h : storeFailure a w = .returned ret w') :
    ret = -1 ∧ w' = { w with stdinFd := some (-1), stdoutFd := some (-1),
                             stderrFd := some (-1), childPid := some (-1) } := by
  unfold storeFailure at h
  split at h
  · cases h
  · split at h
    · cases h
    · split at h
      · cases h
      · split at h
        · cases h
        · injection h with h1 h2
          exact ⟨h1.symm, h2.symm⟩

theorem childBranch_ne_returned (env : Env) (a : Args) (p : Pipes) (w : World) (ret : Int)
    (w' : World) : childBranch env a p w ≠ .returned ret w' := by
  unfold childBranch
  dsimp only
  generalize dupRedirects env a p _ = d
  obtain ⟨f, w4⟩ := d
  dsimp only
  by_cases hf : f = true
  · simp [hf]
  · simp only [hf, if_false]
    generalize (if a.cwd = true then chdir env _ else (0, _)) = c
    obtain ⟨r, w8⟩ := c
    dsimp only
    by_cases hr : r = -1
    · simp [hr]
    · simp only [hr, if_false]
      cases env.execveErr <;> simp

theorem done_success_returned (env : Env) (a : Args) (p : Pipes) (fuel : Nat) (w : World)
    (o : Outcome) (h : done env a true p fuel w = some o) :
    ∃ w', o = .returned 0 w' := by
  rw [done_success] at h
  split at h
  · cases hr : readLoop env p.waitForChildToExecPipe.readEnd fuel 0
        (closeAll env [p.stdinFds.readEnd, p.stdoutFds.writeEnd, p.stderrFds.writeEnd,
          p.waitForChildToExecPipe.writeEnd] w) with
    | none => rw [hr] at h; cases h
    | some w5 =>
      rw [hr] at h
      simp only [Option.map_some', Option.some.injEq] at h
      exact ⟨_, h.symm⟩
  · simp only [Option.some.injEq] at h
    exact ⟨_, h.symm⟩

/-- A parent-side return of `-1` comes from the failure block, after its stores. -/
theorem returned_failure_form (env : Env) (a : Args) (fuel : Nat) (w : World) (ret : Int)
    (w' : World) (h : SystemNative_ForkAndExecProcess env a fuel w = some (.returned ret w'))
    (hret : ret = -1) :
    ∃ w1, storeFailure a w1 = .returned ret w' := by
  rw [run_eq] at h
  split at h
  · exact ⟨_, Option.some.inj h⟩
  · split at h
    · exact ⟨_, Option.some.inj h⟩
    · split at h
      · exact ⟨_, Option.some.inj h⟩
      · split at h
        · exact absurd (Option.some.inj h) (childBranch_ne_returned _ _ _ _ _ _)
        · obtain ⟨w2, h2⟩ := done_success_returned _ _ _ _ _ _ h
          injection h2 with h3 _
          omega

/-- C1: whenever the parent-side call returns `-1`, the four output cells
`*childPid`, `*stdinFd`, `*stdoutFd` and `*stderrFd` all hold `-1`. -/
theorem failure_resets_outputs (env : Env) (a : Args) (fuel : Nat) (w : World) (ret : Int)
    (w' : World) (h : SystemNative_ForkAndExecProcess env a fuel w = some (.returned ret w'))
    (hret : ret = -1) :
    w'.childPid = some (-1) ∧ w'.stdinFd = some (-1) ∧ w'.stdoutFd = some (-1)
      ∧ w'.stderrFd = some (-1) := by
  obtain ⟨w1, h1⟩ := returned_failure_form env a fuel w ret w' h hret
  obtain ⟨_, h2⟩ := storeFailure_returned a w1 ret w' h1
  subst h2
  exact ⟨rfl, rfl, rfl, rfl⟩

theorem failure_resets_outputs_witness :
    (finalWorld forkFailEnv allArgs 0 stdWorld).childPid = some (-1)
      ∧ (finalWorld forkFailEnv allArgs 0 stdWorld).stdinFd = some (-1)
      ∧ (finalWorld forkFailEnv allArgs 0 stdWorld).stdoutFd = some (-1)
      ∧ (finalWorld forkFailEnv allArgs 0 stdWorld).stderrFd = some (-1) :=
  failure_resets_outputs forkFailEnv allArgs 0 stdWorld (-1)
    (finalWorld forkFailEnv allArgs 0 stdWorld) (by decide) (by decide)

/-- C5 (the code at a null output pointer): with `stdinFd` null and every other
argument valid, the run does not return `-1`; it reaches the failure block and
stores through the null `stdinFd`. -/
theorem null_slot_is_written (env : Env) (fuel : Nat) (w : World) :
    SystemNative_ForkAndExecProcess env { allArgs with stdinFd := false } fuel w
      = some (.nullWrite { w with errno := EINVAL }) := by
  rw [run_eq]
  rfl

/-! ## Opening the pipes -/

theorem entry_set (p : Pipes) (id id' : PipeId) (v : FdPair) (wr : Bool) :
    (p.set id v).entry id' wr =
      if id' = id then (if wr then v.writeEnd else v.readEnd) else p.entry id' wr := by
  cases id <;> cases id' <;> simp [Pipes.set, Pipes.entry, Pipes.get]

theorem get_set (p : Pipes) (id id' : PipeId) (v : FdPair) :
    (p.set id v).get id' = if id' = id then v else p.get id' := by
  cases id <;> cases id' <;> simp [Pipes.set, Pipes.get]

theorem set_get (p : Pipes) (id : PipeId) : p.set id (p.get id) = p := by
  cases id <;> rfl

theorem openedFds_append (t1 t2 : List Event) :
    openedFds (t1 ++ t2) = openedFds t1 ++ openedFds t2 := by
  simp [openedFds]

theorem tracks_start (w : World) (h : w.trace = []) : Tracks w noPipes w where
  entries := by
    intro id wr
    left
    cases id <;> cases wr <;> rfl
  others := fun _ _ => rfl
  opened := by
    intro fd
    rw [h]
    constructor
    · intro h1; simp [openedFds] at h1
    · rintro ⟨id, wr, h1⟩
      have : noPipes.entry id wr = -1 := by cases id <;> cases wr <;> rfl
      rw [this] at h1
      omega
  quiet := by rw [h]; intro e he; cases he
  outs := ⟨rfl, rfl, rfl, rfl⟩

/-- A failed `pipe`/`pipe2` changes `errno` and the log only. -/
theorem tracks_failed (w0 : World) (p : Pipes) (w : World) (e : Int) (ev : Event)
    (h : Tracks w0 p w) (hev : ev.opened = [])
    (hq : (∀ fd, ev ≠ Event.close fd) ∧ (∀ fd r, ev ≠ Event.read fd r)) :
    Tracks w0 p { w with errno := e, trace := w.trace ++ [ev] } where
  entries := h.entries
  others := h.others
  opened := by
    intro fd
    rw [← h.opened fd]
    simp [openedFds_append, openedFds, hev]
  quiet := by
    intro e1 he1
    rcases List.mem_append.mp he1 with h1 | h1
    · exact h.quiet e1 h1
    · rw [List.mem_singleton.mp h1]; exact hq
  outs := h.outs

/-- A successful `pipe`/`pipe2` into an array that was still `{-1, -1}`. -/
theorem tracks_opened (w0 : World) (p : Pipes) (w : World) (id : PipeId) (ev : Event)
    (h : Tracks w0 p w) (hun : Unopened p id)
    (hev : ev.opened = [w.fds.lowestFree,
      (w.fds.assign w.fds.lowestFree (some (.readEnd id))).lowestFree])
    (hq : (∀ fd, ev ≠ Event.close fd) ∧ (∀ fd r, ev ≠ Event.read fd r)) :
    Tracks w0
      (p.set id ⟨w.fds.lowestFree,
        (w.fds.assign w.fds.lowestFree (some (.readEnd id))).lowestFree⟩)
      { w with
        fds := (w.fds.assign w.fds.lowestFree (some (.readEnd id))).assign
          (w.fds.assign w.fds.lowestFree (some (.readEnd id))).lowestFree (some (.writeEnd id))
        trace := w.trace ++ [ev] } := by
  generalize hr : w.fds.lowestFree = r at *
  generalize hwr : (w.fds.assign r (some (.readEnd id))).lowestFree = wr at *
  have fr : w.fds.lookup r = none := by rw [← hr]; exact lookup_lowestFree _
  have fwr0 : (w.fds.assign r (some (.readEnd id))).lookup wr = none := by
    rw [← hwr]; exact lookup_lowestFree _
  rw [lookup_assign] at fwr0
  have hne : wr ≠ r := by
    intro e; rw [if_pos e] at fwr0; cases fwr0
  rw [if_neg hne] at fwr0
  have hne2 : r ≠ wr := fun e => hne e.symm
  -- a free descriptor is in none of the arrays
  have notEntry : ∀ n : Nat, w.fds.lookup n = none → ∀ id' wr', p.entry id' wr' ≠ n := by
    intro n hn id' wr' he
    rcases h.entries id' wr' with h1 | ⟨m, h1, h2, _⟩
    · omega
    · have : m = n := by omega
      subst this
      rw [hn] at h2; cases h2
  have hold : ∀ wr', p.entry id wr' = -1 := by
    intro wr'
    unfold Unopened at hun
    cases wr' <;> simp [Pipes.entry, hun]
  refine ⟨?_, ?_, ?_, ?_, h.outs⟩
  · intro id' wr'
    rw [entry_set]
    by_cases hid : id' = id
    · subst hid
      right
      rw [if_pos rfl]
      cases wr'
      · refine ⟨r, by simp, ?_, ?_⟩
        · simp [lookup_assign, hne2, endObj]
        · rw [← h.others r (notEntry r fr)]; exact fr
      · refine ⟨wr, by simp, ?_, ?_⟩
        · simp [lookup_assign, endObj]
        · rw [← h.others wr (notEntry wr fwr0)]; exact fwr0
    · rw [if_neg hid]
      rcases h.entries id' wr' with h1 | ⟨m, h1, h2, h3⟩
      · exact Or.inl h1
      · right
        refine ⟨m, h1, ?_, h3⟩
        have m1 : m ≠ r := by intro e; subst e; rw [fr] at h2; cases h2
        have m2 : m ≠ wr := by intro e; subst e; rw [fwr0] at h2; cases h2
        simp [lookup_assign, m1, m2, h2]
  · intro fd hfd
    have f1 : fd ≠ r := by
      intro e
      have := hfd id false
      rw [entry_set, if_pos rfl] at this
      simp at this
      omega
    have f2 : fd ≠ wr := by
      intro e
      have := hfd id true
      rw [entry_set, if_pos rfl] at this
      simp at this
      omega
    have f3 : ∀ id' wr', p.entry id' wr' ≠ fd := by
      intro id' wr'
      by_cases hid : id' = id
      · subst hid; rw [hold]; omega
      · have := hfd id' wr'
        rw [entry_set, if_neg hid] at this
        exact this
    simp only [lookup_assign, f1, f2, if_false]
    exact h.others fd f3
  · intro fd
    simp only [openedFds_append]
    rw [List.mem_append, h.opened fd]
    have hs : openedFds [ev] = [r, wr] := by simp [openedFds, hev]
    rw [hs]
    constructor
    · rintro (⟨id', wr', h1⟩ | h1)
      · refine ⟨id', wr', ?_⟩
        rw [entry_set]
        by_cases hid : id' = id
        · subst hid; rw [hold] at h1; omega
        · rw [if_neg hid]; exact h1
      · simp only [List.mem_cons, List.mem_singleton, List.not_mem_nil, or_false] at h1
        rcases h1 with h1 | h1
        · exact ⟨id, false, by rw [entry_set, if_pos rfl]; simp [h1]⟩
        · exact ⟨id, true, by rw [entry_set, if_pos rfl]; simp [h1]⟩
    · rintro ⟨id', wr', h1⟩
      rw [entry_set] at h1
      by_cases hid : id' = id
      · rw [if_pos hid] at h1
        right
        cases wr'
        · simp at h1; simp [h1]
        · simp at h1; simp [h1]
      · rw [if_neg hid] at h1
        exact Or.inl ⟨id', wr', h1⟩
  · intro e1 he1
    rcases List.mem_append.mp he1 with h1 | h1
    · exact h.quiet e1 h1
    · rw [List.mem_singleton.mp h1]; exact hq

theorem redirectPipe_skip (env : Env) (flag : Int) (id : PipeId) (p : Pipes) (w : World)
    (h : isTrue32 flag = false) : redirectPipe env flag id p w = (false, p, w) := by
  simp [redirectPipe, h]

theorem redirectPipe_fail (env : Env) (flag : Int) (id : PipeId) (p : Pipes) (w : World) (e : Int)
    (h : isTrue32 flag = true) (he : env.pipeErr id = some e) :
    redirectPipe env flag id p w
      = (true, p, { w with errno := e, trace := w.trace ++ [.pipe id none] }) := by
  simp [redirectPipe, h, pipe, openPipe, he, set_get]

theorem redirectPipe_ok (env : Env) (flag : Int) (id : PipeId) (p : Pipes) (w : World)
    (h : isTrue32 flag = true) (he : env.pipeErr id = none) :
    redirectPipe env flag id p w
      = (false,
          p.set id ⟨w.fds.lowestFree,
            (w.fds.assign w.fds.lowestFree (some (.readEnd id))).lowestFree⟩,
          { w with
            fds := (w.fds.assign w.fds.lowestFree (some (.readEnd id))).assign
              (w.fds.assign w.fds.lowestFree (some (.readEnd id))).lowestFree
              (some (.writeEnd id))
            trace := w.trace ++ [.pipe id (some (w.fds.lowestFree,
              (w.fds.assign w.fds.lowestFree (some (.readEnd id))).lowestFree))] }) := by
  simp [redirectPipe, h, pipe, openPipe, he]

/-- One disjunct of the pipe-opening condition, on an array still `{-1, -1}`. -/
theorem redirectPipe_step (env : Env) (flag : Int) (id : PipeId) (w0 : World) (p : Pipes)
    (w : World) (h : Tracks w0 p w) (hun : Unopened p id) :
    Tracks w0 (redirectPipe env flag id p w).2.1 (redirectPipe env flag id p w).2.2
    ∧ (∀ id', id' ≠ id → (redirectPipe env flag id p w).2.1.get id' = p.get id')
    ∧ ((redirectPipe env flag id p w).1 = true →
        isTrue32 flag = true ∧ ∃ e, env.pipeErr id = some e
          ∧ (redirectPipe env flag id p w).2.2.errno = e
          ∧ Event.pipe id none ∈ (redirectPipe env flag id p w).2.2.trace
          ∧ (redirectPipe env flag id p w).2.1 = p)
    ∧ ((redirectPipe env flag id p w).1 = false →
        (isTrue32 flag = true → env.pipeErr id = none ∧ Opened (redirectPipe env flag id p w).2.1 id)
        ∧ (isTrue32 flag = false → (redirectPipe env flag id p w).2.1 = p))
    ∧ (∀ e ∈ (redirectPipe env flag id p w).2.2.trace, e ∈ w.trace ∨ ∃ res, e = Event.pipe id res) := by
  by_cases hf : isTrue32 flag = true
  · cases he : env.pipeErr id with
    | some e =>
      rw [redirectPipe_fail env flag id p w e hf he]
      refine ⟨tracks_failed w0 p w e _ h rfl ⟨by intro fd; simp, by intro fd r; simp⟩,
        fun _ _ => rfl, fun _ => ⟨hf, e, rfl, rfl, by simp, rfl⟩, ?_, ?_⟩
      · intro h1; simp at h1
      · intro e1 he1
        rcases List.mem_append.mp he1 with h1 | h1
        · exact Or.inl h1
        · exact Or.inr ⟨none, List.mem_singleton.mp h1⟩
    | none =>
      rw [redirectPipe_ok env flag id p w hf he]
      refine ⟨tracks_opened w0 p w id _ h hun rfl ⟨by intro fd; simp, by intro fd r; simp⟩,
        ?_, ?_, ?_, ?_⟩
      · intro id' hid
        simp only [get_set, if_neg hid]
      · intro h1; simp at h1
      · intro _
        refine ⟨fun _ => ⟨rfl, ?_⟩, fun h1 => ?_⟩
        · exact ⟨w.fds.lowestFree,
            (w.fds.assign w.fds.lowestFree (some (.readEnd id))).lowestFree,
            by simp only [get_set, if_pos]⟩
        · rw [hf] at h1; simp at h1
      · intro e1 he1
        rcases List.mem_append.mp he1 with h1 | h1
        · exact Or.inl h1
        · exact Or.inr ⟨_, List.mem_singleton.mp h1⟩
  · have hf2 : isTrue32 flag = false := by simpa using hf
    rw [redirectPipe_skip env flag id p w hf2]
    refine ⟨h, fun _ _ => rfl, ?_, ?_, fun e1 he1 => Or.inl he1⟩
    · intro h1; simp at h1
    · intro _
      refine ⟨fun h1 => ?_, fun _ => rfl⟩
      rw [hf2] at h1; simp at h1

theorem openRedirectPipes_eq (env : Env) (a : Args) (p : Pipes) (w : World) :
    openRedirectPipes env a p w =
      if (redirectPipe env a.redirectStdin .stdinPipe p w).1 = true then
        (true, (redirectPipe env a.redirectStdin .stdinPipe p w).2)
      else if (redirectPipe env a.redirectStdout .stdoutPipe
          (redirectPipe env a.redirectStdin .stdinPipe p w).2.1
          (redirectPipe env a.redirectStdin .stdinPipe p w).2.2).1 = true then
        (true, (redirectPipe env a.redirectStdout .stdoutPipe
          (redirectPipe env a.redirectStdin .stdinPipe p w).2.1
          (redirectPipe env a.redirectStdin .stdinPipe p w).2.2).2)
      else
        redirectPipe env a.redirectStderr .stderrPipe
          (redirectPipe env a.redirectStdout .stdoutPipe
            (redirectPipe env a.redirectStdin .stdinPipe p w).2.1
            (redirectPipe env a.redirectStdin .stdinPipe p w).2.2).2.1
          (redirectPipe env a.redirectStdout .stdoutPipe
            (redirectPipe env a.redirectStdin .stdinPipe p w).2.1
            (redirectPipe env a.redirectStdin .stdinPipe p w).2.2).2.2 := by
  unfold openRedirectPipes
  rcases redirectPipe env a.redirectStdin .stdinPipe p w with ⟨c1, p1, w1⟩
  dsimp only

/-- What holds once the pipe-opening condition has been evaluated. -/
theorem pipesStage_spec (env : Env) (a : Args) (w : World) (hw : w.trace = []) :
    Tracks w (pipesStage env a w).2.1 (pipesStage env a w).2.2
    ∧ Unopened (pipesStage env a w).2.1 .execPipe
    ∧ ((pipesStage env a w).1 = true →
        ∃ id e, requested a id = true ∧ env.pipeErr id = some e
          ∧ (pipesStage env a w).2.2.errno = e
          ∧ Event.pipe id none ∈ (pipesStage env a w).2.2.trace)
    ∧ ((pipesStage env a w).1 = false →
        ∀ id, (requested a id = true → env.pipeErr id = none ∧ Opened (pipesStage env a w).2.1 id)
          ∧ (requested a id = false → Unopened (pipesStage env a w).2.1 id))
    ∧ (∀ e ∈ (pipesStage env a w).2.2.trace, ∃ id res, e = Event.pipe id res) := by
  have t0 := tracks_start w hw
  obtain ⟨a1, b1, c1, d1, e1⟩ :=
    redirectPipe_step env a.redirectStdin .stdinPipe w noPipes w t0 rfl
  have u1 : ∀ id, id ≠ PipeId.stdinPipe →
      Unopened (redirectPipe env a.redirectStdin .stdinPipe noPipes w).2.1 id := by
    intro id hid
    unfold Unopened
    rw [b1 id hid]
    cases id <;> rfl
  have tr1 : ∀ e ∈ (redirectPipe env a.redirectStdin .stdinPipe noPipes w).2.2.trace,
      ∃ id res, e = Event.pipe id res := by
    intro e he
    rcases e1 e he with h | ⟨res, h⟩
    · rw [hw] at h; cases h
    · exact ⟨_, res, h⟩
  unfold pipesStage
  rw [openRedirectPipes_eq]
  by_cases h1 : (redirectPipe env a.redirectStdin .stdinPipe noPipes w).1 = true
  · rw [if_pos h1]
    obtain ⟨hf, e, he, herr, hev, _⟩ := c1 h1
    refine ⟨a1, u1 _ (by decide), fun _ => ⟨.stdinPipe, e, hf, he, herr, hev⟩, ?_, tr1⟩
    intro h; simp at h
  · rw [if_neg h1]
    have h1f : (redirectPipe env a.redirectStdin .stdinPipe noPipes w).1 = false := by
      simpa using h1
    obtain ⟨a2, b2, c2, d2, e2⟩ := redirectPipe_step env a.redirectStdout .stdoutPipe w _ _ a1
      (u1 _ (by decide))
    have tr2 : ∀ e ∈ (redirectPipe env a.redirectStdout .stdoutPipe
        (redirectPipe env a.redirectStdin .stdinPipe noPipes w).2.1
        (redirectPipe env a.redirectStdin .stdinPipe noPipes w).2.2).2.2.trace,
        ∃ id res, e = Event.pipe id res := by
      intro e he
      rcases e2 e he with h | ⟨res, h⟩
      · exact tr1 e h
      · exact ⟨_, res, h⟩
    by_cases h2 : (redirectPipe env a.redirectStdout .stdoutPipe
        (redirectPipe env a.redirectStdin .stdinPipe noPipes w).2.1
        (redirectPipe env a.redirectStdin .stdinPipe noPipes w).2.2).1 = true
    · rw [if_pos h2]
      obtain ⟨hf, e, he, herr, hev, _⟩ := c2 h2
      refine ⟨a2, ?_, fun _ => ⟨.stdoutPipe, e, hf, he, herr, hev⟩, ?_, tr2⟩
      · unfold Unopened
        rw [b2 _ (by decide)]
        exact u1 _ (by decide)
      · intro h; simp at h
    · rw [if_neg h2]
      have h2f : (redirectPipe env a.redirectStdout .stdoutPipe
          (redirectPipe env a.redirectStdin .stdinPipe noPipes w).2.1
          (redirectPipe env a.redirectStdin .stdinPipe noPipes w).2.2).1 = false := by
        simpa using h2
      have u2 : ∀ id, id ≠ PipeId.stdinPipe → id ≠ PipeId.stdoutPipe →
          Unopened (redirectPipe env a.redirectStdout .stdoutPipe
            (redirectPipe env a.redirectStdin .stdinPipe noPipes w).2.1
            (redirectPipe env a.redirectStdin .stdinPipe noPipes w).2.2).2.1 id := by
        intro id hid hid2
        unfold Unopened
        rw [b2 id hid2]
        exact u1 id hid
      obtain ⟨a3, b3, c3, d3, e3⟩ := redirectPipe_step env a.redirectStderr .stderrPipe w _ _ a2
        (u2 _ (by decide) (by decide))
      refine ⟨a3, ?_, ?_, ?_, ?_⟩
      · unfold Unopened
        rw [b3 _ (by decide)]
        exact u2 _ (by decide) (by decide)
      · intro h3
        obtain ⟨hf, e, he, herr, hev, _⟩ := c3 h3
        exact ⟨.stderrPipe, e, hf, he, herr, hev⟩
      · intro h3 id
        have k1 := d1 h1f
        have k2 := d2 h2f
        have k3 := d3 h3
        cases id
        · refine ⟨fun hr => ⟨(k1.1 hr).1, ?_⟩, fun hr => ?_⟩
          · obtain ⟨r, wr, hh⟩ := (k1.1 hr).2
            exact ⟨r, wr, by rw [b3 _ (by decide), b2 _ (by decide)]; exact hh⟩
          · unfold Unopened
            rw [b3 _ (by decide), b2 _ (by decide), k1.2 hr]
            rfl
        · refine ⟨fun hr => ⟨(k2.1 hr).1, ?_⟩, fun hr => ?_⟩
          · obtain ⟨r, wr, hh⟩ := (k2.1 hr).2
            exact ⟨r, wr, by rw [b3 _ (by decide)]; exact hh⟩
          · unfold Unopened
            rw [b3 _ (by decide), k2.2 hr]
            exact u1 _ (by decide)
        · refine ⟨fun hr => k3.1 hr, fun hr => ?_⟩
          unfold Unopened
          rw [k3.2 hr]
          exact u2 _ (by decide) (by decide)
        · refine ⟨fun hr => ?_, fun _ => ?_⟩
          · simp [requested] at hr
          · unfold Unopened
            rw [b3 _ (by decide)]
            exact u2 _ (by decide) (by decide)
      · intro e he
        rcases e3 e he with h | ⟨res, h⟩
        · exact tr2 e h
        · exact ⟨_, res, h⟩

theorem pipe2_fail (env : Env) (p : Pipes) (w : World) (e : Int)
    (he : env.pipeErr .execPipe = some e) :
    (pipe2 env p w).2 = (p, { w with errno := e, trace := w.trace ++ [.pipe2 none] }) := by
  simp [pipe2, openPipe, he, set_get]

theorem pipe2_ok (env : Env) (p : Pipes) (w : World) (he : env.pipeErr .execPipe = none) :
    (pipe2 env p w).2
      = (p.set .execPipe ⟨w.fds.lowestFree,
            (w.fds.assign w.fds.lowestFree (some (.readEnd .execPipe))).lowestFree⟩,
          { w with
            fds := (w.fds.assign w.fds.lowestFree (some (.readEnd .execPipe))).assign
              (w.fds.assign w.fds.lowestFree (some (.readEnd .execPipe))).lowestFree
              (some (.writeEnd .execPipe))
            trace := w.trace ++ [.pipe2 (some (w.fds.lowestFree,
              (w.fds.assign w.fds.lowestFree (some (.readEnd .execPipe))).lowestFree))] }) := by
  simp [pipe2, openPipe, he]

/-- What holds after the `pipe2` call (or its absence from the build). -/
theorem pipe2Stage_spec (env : Env) (a : Args) (w : World) (hw : w.trace = []) :
    Tracks w (pipe2Stage env a w).1 (pipe2Stage env a w).2
    ∧ (∀ id, id ≠ PipeId.execPipe →
        (pipe2Stage env a w).1.get id = (pipesStage env a w).2.1.get id)
    ∧ (env.havePipe2 = true → env.pipeErr .execPipe = none →
        ∃ br bw : Nat, (pipe2Stage env a w).1.waitForChildToExecPipe = ⟨br, bw⟩
          ∧ (pipe2Stage env a w).2.trace
              = (pipesStage env a w).2.2.trace ++ [.pipe2 (some (br, bw))])
    ∧ (¬ (env.havePipe2 = true ∧ env.pipeErr .execPipe = none) →
        Unopened (pipe2Stage env a w).1 .execPipe)
    ∧ (∀ e ∈ (pipe2Stage env a w).2.trace,
        (∃ id res, e = Event.pipe id res) ∨ ∃ res, e = Event.pipe2 res) := by
  obtain ⟨t1, u1, _, _, tr1⟩ := pipesStage_spec env a w hw
  unfold pipe2Stage
  by_cases h2 : env.havePipe2 = true
  · rw [if_pos h2]
    cases he : env.pipeErr .execPipe with
    | some e =>
      rw [pipe2_fail env _ _ e he]
      refine ⟨tracks_failed w _ _ e _ t1 rfl ⟨by intro fd; simp, by intro fd r; simp⟩,
        fun _ _ => rfl, ?_, fun _ => u1, ?_⟩
      · intro _ h; cases h
      · intro e1 he1
        rcases List.mem_append.mp he1 with h | h
        · exact Or.inl (tr1 e1 h)
        · exact Or.inr ⟨none, List.mem_singleton.mp h⟩
    | none =>
      rw [pipe2_ok env _ _ he]
      refine ⟨tracks_opened w _ _ .execPipe _ t1 u1 rfl ⟨by intro fd; simp, by intro fd r; simp⟩,
        ?_, ?_, ?_, ?_⟩
      · intro id hid
        simp only [get_set, if_neg hid]
      · intro _ _
        exact ⟨_, _, rfl, rfl⟩
      · intro h; exact absurd ⟨h2, rfl⟩ h
      · intro e1 he1
        rcases List.mem_append.mp he1 with h | h
        · exact Or.inl (tr1 e1 h)
        · exact Or.inr ⟨_, List.mem_singleton.mp h⟩
  · rw [if_neg h2]
    refine ⟨t1, fun _ _ => rfl, fun h => absurd h h2, fun _ => u1, fun e1 he1 => Or.inl (tr1 e1 he1)⟩

theorem forkStage_eq (env : Env) (a : Args) (w : World) :
    forkStage env a w = { (pipe2Stage env a w).2 with
      errno := if env.forkRet = -1 then env.forkErr else (pipe2Stage env a w).2.errno
      trace := (pipe2Stage env a w).2.trace ++ [.fork env.forkRet] } := rfl

theorem forkStage_tracks (env : Env) (a : Args) (w : World) (hw : w.trace = []) :
    Tracks w (pipe2Stage env a w).1 (forkStage env a w) := by
  rw [forkStage_eq]
  exact tracks_failed w _ _ _ _ (pipe2Stage_spec env a w hw).1 rfl
    ⟨by intro fd; simp, by intro fd r; simp⟩

/-! ## The barrier read -/

theorem readLoop_succ (env : Env) (fd : Int) (fuel k : Nat) (w : World) :
    readLoop env fd (fuel + 1) k w =
      if interrupted (env.readRes k) = true then
        readLoop env fd fuel (k + 1)
          { w with errno := (env.readRes k).2
                   trace := w.trace ++ [.read fd (env.readRes k).1] }
      else
        some { w with errno := if (env.readRes k).1 = -1 then (env.readRes k).2 else w.errno
                      trace := w.trace ++ [.read fd (env.readRes k).1] } := by
  simp only [readLoop, read, interrupted, decide_eq_true_eq]
  by_cases h1 : (env.readRes k).1 = -1
  · by_cases h2 : (env.readRes k).2 = EINTR
    · simp [h1, h2]
    · simp [h1, h2]
  · simp [h1]

theorem readEvents_succ (env : Env) (fd : Int) (k n : Nat) :
    readEvents env fd k (n + 1)
      = Event.read fd (env.readRes k).1 :: readEvents env fd (k + 1) n := by
  unfold readEvents
  rw [List.range_succ_eq_map, List.map_cons, List.map_map]
  congr 1
  apply List.map_congr_left
  intro i _
  simp only [Function.comp, Nat.zero_add]
  congr 3
  omega

/-- With enough fuel the loop ends at the first read that is not interrupted,
having changed nothing but `errno` and the log. -/
theorem readLoop_total (env : Env) (fd : Int) (n : Nat) :
    ∀ (fuel k : Nat) (w : World), n < fuel →
      (∀ i, i < n → interrupted (env.readRes (k + i)) = true) →
      interrupted (env.readRes (k + n)) = false →
      ∃ w', readLoop env fd fuel k w = some w' ∧ w'.fds = w.fds
        ∧ w'.trace = w.trace ++ readEvents env fd k n
        ∧ w'.childPid = w.childPid ∧ w'.stdinFd = w.stdinFd ∧ w'.stdoutFd = w.stdoutFd
        ∧ w'.stderrFd = w.stderrFd := by
  induction n with
  | zero =>
    intro fuel k w hf _ hn
    obtain ⟨f, rfl⟩ : ∃ f, fuel = f + 1 := ⟨fuel - 1, by omega⟩
    rw [readLoop_succ]
    simp only [Nat.add_zero] at hn
    rw [hn]
    exact ⟨_, rfl, rfl, by simp [readEvents, List.range_succ], rfl, rfl, rfl, rfl⟩
  | succ n ih =>
    intro fuel k w hf hi hn
    obtain ⟨f, rfl⟩ : ∃ f, fuel = f + 1 := ⟨fuel - 1, by omega⟩
    rw [readLoop_succ]
    have h0 := hi 0 (Nat.succ_pos n)
    simp only [Nat.add_zero] at h0
    rw [h0, if_pos rfl]
    obtain ⟨w', h1, h2, h3, h4⟩ := ih f (k + 1) _ (by omega)
      (fun i hlt => by
        have := hi (i + 1) (by omega)
        rwa [show k + (i + 1) = k + 1 + i by omega] at this)
      (by rwa [show k + (n + 1) = k + 1 + n by omega] at hn)
    refine ⟨w', h1, h2, ?_, h4⟩
    rw [h3, readEvents_succ]
    simp

/-- A loop that ended changed nothing but `errno` and the log, to which it
added `read` calls only. -/
theorem readLoop_some (env : Env) (fd : Int) :
    ∀ (fuel k : Nat) (w w' : World), readLoop env fd fuel k w = some w' →
      w'.fds = w.fds ∧ w'.childPid = w.childPid ∧ w'.stdinFd = w.stdinFd
        ∧ w'.stdoutFd = w.stdoutFd ∧ w'.stderrFd = w.stderrFd
        ∧ ∃ evs, w'.trace = w.trace ++ evs ∧ ∀ e ∈ evs, ∃ r, e = Event.read fd r := by
  intro fuel
  induction fuel with
  | zero => intro k w w' h; cases h
  | succ f ih =>
    intro k w w' h
    rw [readLoop_succ] at h
    split at h
    · obtain ⟨h1, h2, h3, h4, h5, evs, h6, h7⟩ := ih _ _ _ h
      refine ⟨h1, h2, h3, h4, h5, Event.read fd (env.readRes k).1 :: evs, ?_, ?_⟩
      · rw [h6]; simp
      · intro e he
        rcases List.mem_cons.mp he with h8 | h8
        · exact ⟨_, h8⟩
        · exact h7 e h8
    · injection h with h
      subst h
      exact ⟨rfl, rfl, rfl, rfl, rfl, [Event.read fd (env.readRes k).1], rfl,
        fun e he => ⟨_, List.mem_singleton.mp he⟩⟩

/-! ## Return value and `errno` -/

theorem storeFailure_errno (a : Args) (w : World) (ret : Int) (w' : World)
    (h : storeFailure a w = .returned ret w') :
    ret = -1 ∧ w'.errno = w.errno ∧ w'.trace = w.trace ∧ w'.fds = w.fds := by
  obtain ⟨h1, h2⟩ := storeFailure_returned a w ret w' h
  subst h2
  exact ⟨h1, rfl, rfl, rfl⟩

/-- C3: a parent-side return is `0` exactly when the arguments were valid,
every `pipe()` call of a requested redirection succeeded and `fork()` did not
return `-1`; the barrier pipe, the barrier read and the child's `dup2`, `chdir`
and `execve` play no part. -/
theorem parent_success_iff (env : Env) (a : Args) (fuel : Nat) (w : World) (ret : Int)
    (w' : World) (hw : w.trace = [])
    (h : SystemNative_ForkAndExecProcess env a fuel w = some (.returned ret w')) :
    ret = 0 ↔ (nullArgument a = false ∧ badRedirect a = false
      ∧ (∀ id, requested a id = true → env.pipeErr id = none) ∧ env.forkRet ≠ -1) := by
  obtain ⟨_, _, pf, pok, _⟩ := pipesStage_spec env a w hw
  rw [run_eq] at h
  split at h
  · rename_i hv
    obtain ⟨h1, _⟩ := storeFailure_errno _ _ _ _ (Option.some.inj h)
    constructor
    · intro h0; omega
    · rintro ⟨h2, h3, _⟩
      rcases hv with hv | hv
      · rw [h2] at hv; cases hv
      · rw [h3] at hv; cases hv
  · rename_i hv
    have hv1 : nullArgument a = false := by
      cases hn : nullArgument a
      · rfl
      · exact absurd (Or.inl hn) hv
    have hv2 : badRedirect a = false := by
      cases hn : badRedirect a
      · rfl
      · exact absurd (Or.inr hn) hv
    split at h
    · rename_i hp
      obtain ⟨h1, _⟩ := storeFailure_errno _ _ _ _ (Option.some.inj h)
      obtain ⟨id, e, hr, he, _⟩ := pf hp
      constructor
      · intro h0; omega
      · rintro ⟨_, _, h4, _⟩
        rw [h4 id hr] at he; cases he
    · rename_i hp
      have hpf : (pipesStage env a w).1 = false := by simpa using hp
      split at h
      · rename_i hfk
        obtain ⟨h1, _⟩ := storeFailure_errno _ _ _ _ (Option.some.inj h)
        constructor
        · intro h0; omega
        · rintro ⟨_, _, _, h5⟩
          exact absurd hfk h5
      · rename_i hfk
        split at h
        · exact absurd (Option.some.inj h) (childBranch_ne_returned _ _ _ _ _ _)
        · obtain ⟨w2, h2⟩ := done_success_returned _ _ _ _ _ _ h
          injection h2 with h3 _
          constructor
          · intro _
            exact ⟨hv1, hv2, fun id hr => ((pok hpf id).1 hr).1, hfk⟩
          · intro _; exact h3

theorem parent_success_iff_witness :
    (0 : Int) = 0 ↔ (nullArgument allArgs = false ∧ badRedirect allArgs = false
      ∧ (∀ id, requested allArgs id = true → quietEnv.pipeErr id = none)
      ∧ quietEnv.forkRet ≠ -1) :=
  parent_success_iff quietEnv allArgs 1 stdWorld 0 (finalWorld quietEnv allArgs 1 stdWorld)
    rfl (by decide)

/-- C4: when the parent-side call returns `-1`, `errno` is `EINVAL` after a
validation failure, the error of the `pipe()` call that failed, or the
error of the failed `fork()`; no `close` made during cleanup changes it,
whatever that `close` reports. -/
theorem failure_errno (env : Env) (a : Args) (fuel : Nat) (w : World) (ret : Int)
    (w' : World) (hw : w.trace = [])
    (h : SystemNative_ForkAndExecProcess env a fuel w = some (.returned ret w'))
    (hret : ret = -1) :
    ((nullArgument a = true ∨ badRedirect a = true) ∧ w'.errno = EINVAL)
    ∨ (nullArgument a = false ∧ badRedirect a = false
        ∧ ∃ id e, requested a id = true ∧ env.pipeErr id = some e
          ∧ Event.pipe id none ∈ w'.trace ∧ w'.errno = e)
    ∨ (nullArgument a = false ∧ badRedirect a = false
        ∧ (∀ id, requested a id = true → env.pipeErr id = none)
        ∧ env.forkRet = -1 ∧ Event.fork (-1) ∈ w'.trace ∧ w'.errno = env.forkErr) := by
  obtain ⟨_, _, pf, pok, _⟩ := pipesStage_spec env a w hw
  rw [run_eq] at h
  split at h
  · rename_i hv
    obtain ⟨_, h2, _⟩ := storeFailure_errno _ _ _ _ (Option.some.inj h)
    exact Or.inl ⟨hv, h2⟩
  · rename_i hv
    have hv1 : nullArgument a = false := by
      cases hn : nullArgument a
      · rfl
      · exact absurd (Or.inl hn) hv
    have hv2 : badRedirect a = false := by
      cases hn : badRedirect a
      · rfl
      · exact absurd (Or.inr hn) hv
    split at h
    · rename_i hp
      obtain ⟨_, h2, h3, _⟩ := storeFailure_errno _ _ _ _ (Option.some.inj h)
      obtain ⟨id, e, hr, he, herr, hev⟩ := pf hp
      refine Or.inr (Or.inl ⟨hv1, hv2, id, e, hr, he, ?_, ?_⟩)
      · rw [h3, closeAll_trace]
        exact List.mem_append_left _ hev
      · rw [h2, closeAll_errno, herr]
    · rename_i hp
      have hpf : (pipesStage env a w).1 = false := by simpa using hp
      split at h
      · rename_i hfk
        obtain ⟨_, h2, h3, _⟩ := storeFailure_errno _ _ _ _ (Option.some.inj h)
        refine Or.inr (Or.inr ⟨hv1, hv2, fun id hr => ((pok hpf id).1 hr).1, hfk, ?_, ?_⟩)
        · rw [h3, closeAll_trace, forkStage_eq, hfk]
          simp
        · rw [h2, closeAll_errno, forkStage_eq, if_pos hfk]
      · split at h
        · exact absurd (Option.some.inj h) (childBranch_ne_returned _ _ _ _ _ _)
        · obtain ⟨w2, h2⟩ := done_success_returned _ _ _ _ _ _ h
          injection h2 with h3 _
          omega

theorem failure_errno_witness :
    ((nullArgument allArgs = true ∨ badRedirect allArgs = true)
        ∧ (finalWorld pipeFailEnv allArgs 0 staleErrnoWorld).errno = EINVAL)
    ∨ (nullArgument allArgs = false ∧ badRedirect allArgs = false
        ∧ ∃ id e, requested allArgs id = true ∧ pipeFailEnv.pipeErr id = some e
          ∧ Event.pipe id none ∈ (finalWorld pipeFailEnv allArgs 0 staleErrnoWorld).trace
          ∧ (finalWorld pipeFailEnv allArgs 0 staleErrnoWorld).errno = e)
    ∨ (nullArgument allArgs = false ∧ badRedirect allArgs = false
        ∧ (∀ id, requested allArgs id = true → pipeFailEnv.pipeErr id = none)
        ∧ pipeFailEnv.forkRet = -1
        ∧ Event.fork (-1) ∈ (finalWorld pipeFailEnv allArgs 0 staleErrnoWorld).trace
        ∧ (finalWorld pipeFailEnv allArgs 0 staleErrnoWorld).errno = pipeFailEnv.forkErr) :=
  failure_errno pipeFailEnv allArgs 0 staleErrnoWorld (-1)
    (finalWorld pipeFailEnv allArgs 0 staleErrnoWorld) rfl (by decide) rfl


/-! ## Which descriptors are closed -/

theorem endObj_inj (id id' : PipeId) (wr wr' : Bool) (h : endObj id wr = endObj id' wr') :
    id = id' ∧ wr = wr' := by
  cases wr <;> cases wr' <;> simp [endObj] at h <;> simp [h]

/-- Two array entries holding the same descriptor are the same entry. -/
theorem entry_inj (w0 : World) (p : Pipes) (w : World) (h : Tracks w0 p w) (n : Nat)
    (id id' : PipeId) (wr wr' : Bool) (h1 : p.entry id wr = n) (h2 : p.entry id' wr' = n) :
    (id', wr') = (id, wr) := by
  rcases h.entries id wr with e1 | ⟨m1, e1, l1, _⟩
  · omega
  · rcases h.entries id' wr' with e2 | ⟨m2, e2, l2, _⟩
    · omega
    · have a1 : m1 = n := by omega
      have a2 : m2 = n := by omega
      subst a1
      subst a2
      rw [l1] at l2
      obtain ⟨b1, b2⟩ := endObj_inj _ _ _ _ (Option.some.inj l2)
      rw [b1, b2]

theorem mem_slots (w0 : World) (p : Pipes) (w : World) (h : Tracks w0 p w) (n : Nat)
    (id : PipeId) (wr : Bool) (h1 : p.entry id wr = n) (slots : List (PipeId × Bool)) :
    (n : Int) ∈ slots.map (fun s => p.entry s.1 s.2) ↔ (id, wr) ∈ slots := by
  rw [List.mem_map]
  constructor
  · rintro ⟨⟨id', wr'⟩, hs, he⟩
    rw [← entry_inj w0 p w h n id id' wr wr' h1 he]
    exact hs
  · intro hs
    exact ⟨(id, wr), hs, h1⟩

theorem count_slots (w0 : World) (p : Pipes) (w : World) (h : Tracks w0 p w) (n : Nat)
    (id : PipeId) (wr : Bool) (h1 : p.entry id wr = n) (slots : List (PipeId × Bool)) :
    (slots.map (fun s => p.entry s.1 s.2)).count (n : Int) = slots.count (id, wr) := by
  induction slots with
  | nil => rfl
  | cons s rest ih =>
    rw [List.map_cons, List.count_cons, List.count_cons, ih]
    congr 1
    by_cases hs : s = (id, wr)
    · subst hs
      simp [h1]
    · have : ¬ p.entry s.1 s.2 = (n : Int) := by
        intro he
        exact hs (entry_inj w0 p w h n id s.1 wr s.2 h1 he)
      simp [hs, this]

theorem closeCount_append (fd : Int) (t1 t2 : List Event) :
    closeCount fd (t1 ++ t2) = closeCount fd t1 + closeCount fd t2 := by
  simp [closeCount]

theorem closeCount_closeEvents (n : Nat) (l : List Int) :
    closeCount (n : Int) (closeEvents l) = l.count (n : Int) := by
  induction l with
  | nil => rfl
  | cons fd rest ih =>
    rw [closeEvents_cons, closeCount_append, ih, List.count_cons]
    rw [Nat.add_comm]
    congr 1
    unfold closeEvents closeCount
    by_cases h0 : (0 : Int) ≤ fd
    · by_cases h1 : fd = (n : Int)
      · simp [h0, h1]
      · have h2 : ¬ (n : Int) = fd := fun e => h1 e.symm
        simp [h0, h1, h2, List.count_cons]
    · have h1 : ¬ fd = (n : Int) := by omega
      simp [h0, h1]

theorem closeCount_quiet (fd : Int) (t : List Event) (h : ∀ e ∈ t, ∀ fd', e ≠ Event.close fd') :
    closeCount fd t = 0 := by
  unfold closeCount
  rw [List.count_eq_zero]
  intro hm
  exact h _ hm fd rfl

theorem openedFds_closeEvents (l : List Int) : openedFds (closeEvents l) = [] := by
  induction l with
  | nil => rfl
  | cons fd rest ih =>
    rw [closeEvents_cons, openedFds_append, ih]
    unfold closeEvents openedFds
    by_cases h0 : (0 : Int) ≤ fd <;> simp [h0, Event.opened]

theorem openedFds_reads (fd : Int) (evs : List Event) (h : ∀ e ∈ evs, ∃ r, e = Event.read fd r) :
    openedFds evs = [] := by
  induction evs with
  | nil => rfl
  | cons e rest ih =>
    obtain ⟨r, hr⟩ := h e (List.mem_cons_self _ _)
    have := ih (fun e' he' => h e' (List.mem_cons_of_mem _ he'))
    subst hr
    simpa [openedFds, Event.opened] using this

theorem closeCount_reads (fd fd' : Int) (evs : List Event)
    (h : ∀ e ∈ evs, ∃ r, e = Event.read fd r) : closeCount fd' evs = 0 := by
  apply closeCount_quiet
  intro e he fd'' hc
  obtain ⟨r, hr⟩ := h e he
  rw [hr] at hc
  cases hc

theorem failureCloses_eq (p : Pipes) :
    failureCloses p = failureSlots.map (fun s => p.entry s.1 s.2) := rfl

theorem successCloses_eq (p : Pipes) :
    successCloses p ++ [p.waitForChildToExecPipe.readEnd]
      = successSlots.map (fun s => p.entry s.1 s.2) := rfl

/-- The failure path gives back the descriptor table of the entry and closes
each descriptor the call opened exactly once. -/
theorem failure_closes_all (env : Env) (w0 : World) (p : Pipes) (w : World)
    (h : Tracks w0 p w) :
    (∀ fd : Nat, (closeAll env (failureCloses p) w).fds.lookup fd = w0.fds.lookup fd)
    ∧ ∀ fd ∈ openedFds (closeAll env (failureCloses p) w).trace,
        w0.fds.lookup fd = none
        ∧ closeCount (fd : Int) (closeAll env (failureCloses p) w).trace = 1 := by
  constructor
  · intro fd
    rw [closeAll_lookup]
    by_cases hm : (fd : Int) ∈ failureCloses p
    · rw [if_pos hm]
      rw [failureCloses_eq, List.mem_map] at hm
      obtain ⟨⟨id, wr⟩, _, he⟩ := hm
      rcases h.entries id wr with e1 | ⟨m, e1, _, l0⟩
      · simp only at he; omega
      · have : m = fd := by simp only at he; omega
        subst this
        exact l0.symm
    · rw [if_neg hm]
      apply h.others
      intro id wr he
      apply hm
      rw [failureCloses_eq, mem_slots w0 p w h fd id wr he]
      cases id <;> cases wr <;> decide
  · intro fd hfd
    rw [closeAll_trace, openedFds_append, openedFds_closeEvents, List.append_nil] at hfd
    obtain ⟨id, wr, he⟩ := (h.opened fd).mp hfd
    constructor
    · rcases h.entries id wr with e1 | ⟨m, e1, _, l0⟩
      · omega
      · have : m = fd := by omega
        subst this
        exact l0
    · rw [closeAll_trace, closeCount_append,
        closeCount_quiet _ _ (fun e he' => (h.quiet e he').1), closeCount_closeEvents,
        failureCloses_eq, count_slots w0 p w h fd id wr he]
      cases id <;> cases wr <;> rfl

/-! ## The success path -/

/-- The state in which a successful `done` returns. -/
theorem done_success_world (env : Env) (a : Args) (p : Pipes) (fuel : Nat) (wb : World)
    (ret : Int) (w' : World) (h : done env a true p fuel wb = some (.returned ret w')) :
    ret = 0
    ∧ (∀ x : Nat, w'.fds.lookup x =
        if (x : Int) ∈ successCloses p ++ [p.waitForChildToExecPipe.readEnd] then none
        else wb.fds.lookup x)
    ∧ w'.childPid = wb.childPid ∧ w'.stdinFd = wb.stdinFd ∧ w'.stdoutFd = wb.stdoutFd
    ∧ w'.stderrFd = wb.stderrFd
    ∧ ∃ evs, (∀ e ∈ evs, ∃ r, e = Event.read p.waitForChildToExecPipe.readEnd r)
        ∧ w'.trace = wb.trace ++ closeEvents (successCloses p) ++ evs
            ++ closeEvents [p.waitForChildToExecPipe.readEnd] := by
  rw [done_success] at h
  obtain ⟨o1, o2, o3, o4⟩ := closeAll_outs env (successCloses p) wb
  split at h
  · cases hr : readLoop env p.waitForChildToExecPipe.readEnd fuel 0
        (closeAll env [p.stdinFds.readEnd, p.stdoutFds.writeEnd, p.stderrFds.writeEnd,
          p.waitForChildToExecPipe.writeEnd] wb) with
    | none => rw [hr] at h; cases h
    | some w5 =>
      rw [hr] at h
      simp only [Option.map_some', Option.some.injEq, Outcome.returned.injEq] at h
      obtain ⟨h1, h2⟩ := h
      obtain ⟨r1, r2, r3, r4, r5, evs, r6, r7⟩ := readLoop_some env _ _ _ _ _ hr
      obtain ⟨c1, c2, c3, c4⟩ := CloseIfOpen_outs env p.waitForChildToExecPipe.readEnd w5
      subst h2
      refine ⟨h1.symm, ?_, ?_, ?_, ?_, ?_, evs, r7, ?_⟩
      · intro x
        rw [CloseIfOpen_lookup, r1]
        have := closeAll_lookup env (successCloses p) wb x
        unfold successCloses at this
        rw [this]
        simp only [List.mem_append, List.mem_singleton, successCloses]
        by_cases hx : (x : Int) = p.waitForChildToExecPipe.readEnd
        · simp [hx]
        · simp [hx]
      · rw [c1, r2]; exact o1
      · rw [c2, r3]; exact o2
      · rw [c3, r4]; exact o3
      · rw [c4, r5]; exact o4
      · rw [CloseIfOpen_trace, r6]
        have := closeAll_trace env (successCloses p) wb
        unfold successCloses at this
        rw [this]
        rfl
  · rename_i hne
    have hw1 : p.waitForChildToExecPipe.readEnd = -1 := by
      by_contra hc; exact hne hc
    simp only [Option.some.injEq, Outcome.returned.injEq] at h
    obtain ⟨h1, h2⟩ := h
    subst h2
    refine ⟨h1.symm, ?lk, o1, o2, o3, o4, [], ?ev, ?tr⟩
    case ev => intro e he; simp at he
    case lk =>
      intro x
      have := closeAll_lookup env (successCloses p) wb x
      unfold successCloses at this
      rw [this]
      simp only [List.mem_append, List.mem_singleton, successCloses, hw1]
      have hx : ¬ (x : Int) = -1 := by omega
      simp [hx]
    case tr =>
      have := closeAll_trace env (successCloses p) wb
      unfold successCloses at this
      rw [this, hw1]
      simp [closeEvents, successCloses]

/-- On the success path, every descriptor the call opened sits in one array
entry, which decides how often it is closed, whether it is open at return and
whether it is one of the outputs. -/
theorem success_slots (env : Env) (a : Args) (fuel : Nat) (w : World) (ret : Int) (w' : World)
    (hw : w.trace = [])
    (h : done env a true (pipe2Stage env a w).1 fuel (boundStage env a w)
      = some (.returned ret w')) :
    ∀ fd ∈ openedFds w'.trace, ∃ id wr,
      w.fds.lookup fd = none
      ∧ closeCount (fd : Int) w'.trace = successSlots.count (id, wr)
      ∧ (w'.fds.lookup fd = if (id, wr) ∈ successSlots then none else some (endObj id wr))
      ∧ (handed w' fd ↔ (id, wr) ∈ handedSlots) := by
  have T := forkStage_tracks env a w hw
  obtain ⟨_, hl, _, o2, o3, o4, evs, hev, htr⟩ := done_success_world _ _ _ _ _ _ _ h
  have hbt : (boundStage env a w).trace = (forkStage env a w).trace := rfl
  have hbf : (boundStage env a w).fds = (forkStage env a w).fds := rfl
  intro fd hfd
  rw [htr, hbt] at hfd
  simp only [openedFds_append, openedFds_closeEvents, openedFds_reads _ _ hev,
    List.append_nil] at hfd
  obtain ⟨id, wr, he⟩ := (T.opened fd).mp hfd
  refine ⟨id, wr, ?_, ?_, ?_, ?_⟩
  · rcases T.entries id wr with e1 | ⟨m, e1, _, l0⟩
    · omega
    · have : m = fd := by omega
      subst this
      exact l0
  · rw [htr, hbt]
    simp only [closeCount_append, closeCount_reads _ _ _ hev,
      closeCount_quiet _ _ (fun e he' => (T.quiet e he').1), closeCount_closeEvents]
    have := count_slots w _ _ T fd id wr he successSlots
    rw [← successCloses_eq, List.count_append] at this
    simpa using this
  · rw [hl fd, successCloses_eq, hbf]
    have hms := mem_slots w _ _ T fd id wr he successSlots
    by_cases hm : (id, wr) ∈ successSlots
    · rw [if_pos (hms.mpr hm), if_pos hm]
    · rw [if_neg (fun hc => hm (hms.mp hc)), if_neg hm]
      rcases T.entries id wr with e1 | ⟨m, e1, l1, _⟩
      · omega
      · have : m = fd := by omega
        subst this
        exact l1
  · unfold handed
    rw [o2, o3, o4]
    have s1 : (boundStage env a w).stdinFd
        = some ((pipe2Stage env a w).1.entry .stdinPipe true) := rfl
    have s2 : (boundStage env a w).stdoutFd
        = some ((pipe2Stage env a w).1.entry .stdoutPipe false) := rfl
    have s3 : (boundStage env a w).stderrFd
        = some ((pipe2Stage env a w).1.entry .stderrPipe false) := rfl
    rw [s1, s2, s3]
    simp only [Option.some.injEq]
    constructor
    · rintro (h1 | h1 | h1)
      · rw [← entry_inj w _ _ T fd id _ wr _ he h1]; decide
      · rw [← entry_inj w _ _ T fd id _ wr _ he h1]; decide
      · rw [← entry_inj w _ _ T fd id _ wr _ he h1]; decide
    · intro hm
      simp only [handedSlots, List.mem_cons, Prod.mk.injEq, List.mem_singleton,
        List.not_mem_nil, or_false] at hm
      rcases hm with ⟨rfl, rfl⟩ | ⟨rfl, rfl⟩ | ⟨rfl, rfl⟩
      · exact Or.inl he
      · exact Or.inr (Or.inl he)
      · exact Or.inr (Or.inr he)

/-! ## Descriptors at return -/

/-- C2: when the call returns in the parent, every descriptor it opened has
been closed exactly once and is closed at return, except the descriptors handed
to the caller through `stdinFd`/`stdoutFd`/`stderrFd` on success, which were
never closed and are open; on failure the descriptor table is the one the call
started with.  This holds for every redirection request and every pattern of
`pipe`, `pipe2` and `fork` failures. -/
theorem no_descriptor_leak (env : Env) (a : Args) (fuel : Nat) (w : World) (ret : Int)
    (w' : World) (hw : w.trace = [])
    (h : SystemNative_ForkAndExecProcess env a fuel w = some (.returned ret w')) :
    (ret = -1 → ∀ fd : Nat, w'.fds.lookup fd = w.fds.lookup fd)
    ∧ ∀ fd ∈ openedFds w'.trace,
        w.fds.lookup fd = none
        ∧ (ret = 0 ∧ handed w' fd →
            closeCount (fd : Int) w'.trace = 0 ∧ w'.fds.lookup fd ≠ none)
        ∧ (¬ (ret = 0 ∧ handed w' fd) →
            closeCount (fd : Int) w'.trace = 1 ∧ w'.fds.lookup fd = none) := by
  -- the three failure paths share this argument
  have fail : ∀ (p : Pipes) (w1 : World), Tracks w p w1 →
      storeFailure a (closeAll env (failureCloses p) w1) = .returned ret w' →
      (ret = -1 → ∀ fd : Nat, w'.fds.lookup fd = w.fds.lookup fd)
      ∧ ∀ fd ∈ openedFds w'.trace,
          w.fds.lookup fd = none
          ∧ (ret = 0 ∧ handed w' fd →
              closeCount (fd : Int) w'.trace = 0 ∧ w'.fds.lookup fd ≠ none)
          ∧ (¬ (ret = 0 ∧ handed w' fd) →
              closeCount (fd : Int) w'.trace = 1 ∧ w'.fds.lookup fd = none) := by
    intro p w1 T hs
    obtain ⟨h1, _, h3, h4⟩ := storeFailure_errno _ _ _ _ hs
    obtain ⟨f1, f2⟩ := failure_closes_all env w p w1 T
    rw [h3, h4]
    refine ⟨fun _ => f1, ?_⟩
    intro fd hfd
    obtain ⟨g1, g2⟩ := f2 fd hfd
    refine ⟨g1, ?_, ?_⟩
    · rintro ⟨h0, _⟩; omega
    · intro _
      exact ⟨g2, by rw [f1 fd]; exact g1⟩
  rw [run_eq] at h
  split at h
  · have T : Tracks w noPipes { w with errno := EINVAL } :=
      { tracks_start w hw with }
    have := fail noPipes _ T
    rw [closeAll_noPipes] at this
    exact this (Option.some.inj h)
  · split at h
    · exact fail _ _ (pipesStage_spec env a w hw).1 (Option.some.inj h)
    · split at h
      · exact fail _ _ (forkStage_tracks env a w hw) (Option.some.inj h)
      · split at h
        · exact absurd (Option.some.inj h) (childBranch_ne_returned _ _ _ _ _ _)
        · obtain ⟨h0, _⟩ := done_success_world _ _ _ _ _ _ _ h
          refine ⟨fun hm => by omega, ?_⟩
          intro fd hfd
          obtain ⟨id, wr, g1, g2, g3, g4⟩ := success_slots env a fuel w ret w' hw h fd hfd
          refine ⟨g1, ?_, ?_⟩
          · rintro ⟨_, hh⟩
            have hm := g4.mp hh
            rw [g2, g3]
            revert hm
            cases id <;> cases wr <;> simp [handedSlots, successSlots, endObj]
          · intro hn
            have hm : (id, wr) ∉ handedSlots := fun hc => hn ⟨h0, g4.mpr hc⟩
            rw [g2, g3]
            revert hm
            cases id <;> cases wr <;> simp [handedSlots, successSlots]

theorem no_descriptor_leak_witness :
    ((-1 : Int) = -1 → ∀ fd : Nat,
        (finalWorld forkFailEnv allArgs 0 stdWorld).fds.lookup fd = stdWorld.fds.lookup fd)
    ∧ ∀ fd ∈ openedFds (finalWorld forkFailEnv allArgs 0 stdWorld).trace,
        stdWorld.fds.lookup fd = none
        ∧ ((-1 : Int) = 0 ∧ handed (finalWorld forkFailEnv allArgs 0 stdWorld) fd →
            closeCount (fd : Int) (finalWorld forkFailEnv allArgs 0 stdWorld).trace = 0
              ∧ (finalWorld forkFailEnv allArgs 0 stdWorld).fds.lookup fd ≠ none)
        ∧ (¬ ((-1 : Int) = 0 ∧ handed (finalWorld forkFailEnv allArgs 0 stdWorld) fd) →
            closeCount (fd : Int) (finalWorld forkFailEnv allArgs 0 stdWorld).trace = 1
              ∧ (finalWorld forkFailEnv allArgs 0 stdWorld).fds.lookup fd = none) :=
  no_descriptor_leak forkFailEnv allArgs 0 stdWorld (-1)
    (finalWorld forkFailEnv allArgs 0 stdWorld) rfl (by decide)


/-- A parent-side return of `0` comes from the success path. -/
theorem returned_success_form (env : Env) (a : Args) (fuel : Nat) (w : World) (ret : Int)
    (w' : World) (h : SystemNative_ForkAndExecProcess env a fuel w = some (.returned ret w'))
    (hret : ret = 0) :
    nullArgument a = false ∧ badRedirect a = false ∧ (pipesStage env a w).1 = false
    ∧ env.forkRet ≠ -1 ∧ env.forkRet ≠ 0
    ∧ done env a true (pipe2Stage env a w).1 fuel (boundStage env a w)
        = some (.returned ret w') := by
  rw [run_eq] at h
  split at h
  · obtain ⟨h1, _⟩ := storeFailure_errno _ _ _ _ (Option.some.inj h)
    omega
  · rename_i hv
    have hv1 : nullArgument a = false := by
      cases hn : nullArgument a
      · rfl
      · exact absurd (Or.inl hn) hv
    have hv2 : badRedirect a = false := by
      cases hn : badRedirect a
      · rfl
      · exact absurd (Or.inr hn) hv
    split at h
    · obtain ⟨h1, _⟩ := storeFailure_errno _ _ _ _ (Option.some.inj h)
      omega
    · rename_i hp
      split at h
      · obtain ⟨h1, _⟩ := storeFailure_errno _ _ _ _ (Option.some.inj h)
        omega
      · rename_i hf1
        split at h
        · exact absurd (Option.some.inj h) (childBranch_ne_returned _ _ _ _ _ _)
        · rename_i hf0
          exact ⟨hv1, hv2, by simpa using hp, hf1, hf0, h⟩

/-- On the success path an array entry that is not closed and holds a
descriptor is still open at return, on its end of its pipe. -/
theorem kept_entry_open (env : Env) (a : Args) (fuel : Nat) (w : World) (ret : Int)
    (w' : World) (hw : w.trace = [])
    (h : done env a true (pipe2Stage env a w).1 fuel (boundStage env a w)
      = some (.returned ret w'))
    (id : PipeId) (wr : Bool) (n : Nat) (he : (pipe2Stage env a w).1.entry id wr = n)
    (hs : (id, wr) ∉ successSlots) :
    w'.fds.lookup n = some (endObj id wr) ∧ w.fds.lookup n = none := by
  have T := forkStage_tracks env a w hw
  obtain ⟨_, hl, _⟩ := done_success_world _ _ _ _ _ _ _ h
  have hms := mem_slots w _ _ T n id wr he successSlots
  rw [hl n, successCloses_eq, if_neg (fun hc => hs (hms.mp hc))]
  rcases T.entries id wr with e1 | ⟨m, e1, l1, l0⟩
  · omega
  · have : m = n := by omega
    subst this
    exact ⟨l1, l0⟩

theorem isTrue32_one : isTrue32 1 = true := by decide

theorem isTrue32_zero : isTrue32 0 = false := by decide

/-- C6: on a successful parent-side return `*childPid` is the value `fork()`
returned; for a stream whose redirect flag is `1` the output descriptor is the
parent's end of that stream's pipe (write end for stdin, read end for stdout
and stderr), opened by this call and still open at return; for a stream whose
flag is `0` the output descriptor is `-1`, whether the call succeeds or fails. -/
theorem success_outputs (env : Env) (a : Args) (fuel : Nat) (w : World) (ret : Int)
    (w' : World) (hw : w.trace = [])
    (h : SystemNative_ForkAndExecProcess env a fuel w = some (.returned ret w')) :
    (ret = 0 → w'.childPid = some env.forkRet)
    ∧ (ret = 0 → a.redirectStdin = 1 → ∃ fd : Nat, w'.stdinFd = some (fd : Int)
        ∧ w'.fds.lookup fd = some (.writeEnd .stdinPipe) ∧ w.fds.lookup fd = none)
    ∧ (ret = 0 → a.redirectStdout = 1 → ∃ fd : Nat, w'.stdoutFd = some (fd : Int)
        ∧ w'.fds.lookup fd = some (.readEnd .stdoutPipe) ∧ w.fds.lookup fd = none)
    ∧ (ret = 0 → a.redirectStderr = 1 → ∃ fd : Nat, w'.stderrFd = some (fd : Int)
        ∧ w'.fds.lookup fd = some (.readEnd .stderrPipe) ∧ w.fds.lookup fd = none)
    ∧ (a.redirectStdin = 0 → w'.stdinFd = some (-1))
    ∧ (a.redirectStdout = 0 → w'.stdoutFd = some (-1))
    ∧ (a.redirectStderr = 0 → w'.stderrFd = some (-1)) := by
  by_cases hret : ret = 0
  · obtain ⟨_, _, hp, _, _, hd⟩ := returned_success_form env a fuel w ret w' h hret
    obtain ⟨_, _, o1, o2, o3, o4, _⟩ := done_success_world _ _ _ _ _ _ _ hd
    obtain ⟨_, _, _, pok, _⟩ := pipesStage_spec env a w hw
    obtain ⟨_, same, _⟩ := pipe2Stage_spec env a w hw
    have k := pok hp
    -- the pipe of a requested stream has been opened
    have op : ∀ id, id ≠ PipeId.execPipe → requested a id = true →
        ∃ r wr : Nat, (pipe2Stage env a w).1.get id = ⟨r, wr⟩ := by
      intro id hid hr
      obtain ⟨r, wr, hh⟩ := ((k id).1 hr).2
      exact ⟨r, wr, by rw [same id hid]; exact hh⟩
    have un : ∀ id, id ≠ PipeId.execPipe → requested a id = false →
        (pipe2Stage env a w).1.get id = ⟨-1, -1⟩ := by
      intro id hid hr
      rw [same id hid]
      exact (k id).2 hr
    refine ⟨fun _ => o1, ?_, ?_, ?_, ?_, ?_, ?_⟩
    · intro _ hf
      obtain ⟨r, wr, hh⟩ := op .stdinPipe (by decide) (by simp [requested, hf, isTrue32_one])
      have he : (pipe2Stage env a w).1.entry .stdinPipe true = wr := by
        simp [Pipes.entry, hh]
      obtain ⟨l1, l0⟩ := kept_entry_open env a fuel w ret w' hw hd _ _ wr he (by decide)
      exact ⟨wr, by rw [o2]; exact congrArg some he, l1, l0⟩
    · intro _ hf
      obtain ⟨r, wr, hh⟩ := op .stdoutPipe (by decide) (by simp [requested, hf, isTrue32_one])
      have he : (pipe2Stage env a w).1.entry .stdoutPipe false = r := by
        simp [Pipes.entry, hh]
      obtain ⟨l1, l0⟩ := kept_entry_open env a fuel w ret w' hw hd _ _ r he (by decide)
      exact ⟨r, by rw [o3]; exact congrArg some he, l1, l0⟩
    · intro _ hf
      obtain ⟨r, wr, hh⟩ := op .stderrPipe (by decide) (by simp [requested, hf, isTrue32_one])
      have he : (pipe2Stage env a w).1.entry .stderrPipe false = r := by
        simp [Pipes.entry, hh]
      obtain ⟨l1, l0⟩ := kept_entry_open env a fuel w ret w' hw hd _ _ r he (by decide)
      exact ⟨r, by rw [o4]; exact congrArg some he, l1, l0⟩
    · intro hf
      have hh := un .stdinPipe (by decide) (by simp [requested, hf, isTrue32_zero])
      rw [o2]
      show some ((pipe2Stage env a w).1.get .stdinPipe).writeEnd = some (-1)
      rw [hh]
    · intro hf
      have hh := un .stdoutPipe (by decide) (by simp [requested, hf, isTrue32_zero])
      rw [o3]
      show some ((pipe2Stage env a w).1.get .stdoutPipe).readEnd = some (-1)
      rw [hh]
    · intro hf
      have hh := un .stderrPipe (by decide) (by simp [requested, hf, isTrue32_zero])
      rw [o4]
      show some ((pipe2Stage env a w).1.get .stderrPipe).readEnd = some (-1)
      rw [hh]
  · have hm : ret = -1 := by
      rw [run_eq] at h
      split at h
      · exact (storeFailure_errno _ _ _ _ (Option.some.inj h)).1
      · split at h
        · exact (storeFailure_errno _ _ _ _ (Option.some.inj h)).1
        · split at h
          · exact (storeFailure_errno _ _ _ _ (Option.some.inj h)).1
          · split at h
            · exact absurd (Option.some.inj h) (childBranch_ne_returned _ _ _ _ _ _)
            · exact absurd (done_success_world _ _ _ _ _ _ _ h).1 hret
    obtain ⟨w1, hs⟩ := returned_failure_form env a fuel w ret w' h hm
    obtain ⟨_, hs2⟩ := storeFailure_returned a w1 ret w' hs
    have f2 : w'.stdinFd = some (-1) := by rw [hs2]
    have f3 : w'.stdoutFd = some (-1) := by rw [hs2]
    have f4 : w'.stderrFd = some (-1) := by rw [hs2]
    exact ⟨fun h0 => absurd h0 hret, fun h0 => absurd h0 hret, fun h0 => absurd h0 hret,
      fun h0 => absurd h0 hret, fun _ => f2, fun _ => f3, fun _ => f4⟩

theorem success_outputs_witness :
    ((0 : Int) = 0 → (finalWorld quietEnv allArgs 1 stdWorld).childPid = some quietEnv.forkRet)
    ∧ ((0 : Int) = 0 → allArgs.redirectStdin = 1 → ∃ fd : Nat,
        (finalWorld quietEnv allArgs 1 stdWorld).stdinFd = some (fd : Int)
        ∧ (finalWorld quietEnv allArgs 1 stdWorld).fds.lookup fd = some (.writeEnd .stdinPipe)
        ∧ stdWorld.fds.lookup fd = none)
    ∧ ((0 : Int) = 0 → allArgs.redirectStdout = 1 → ∃ fd : Nat,
        (finalWorld quietEnv allArgs 1 stdWorld).stdoutFd = some (fd : Int)
        ∧ (finalWorld quietEnv allArgs 1 stdWorld).fds.lookup fd = some (.readEnd .stdoutPipe)
        ∧ stdWorld.fds.lookup fd = none)
    ∧ ((0 : Int) = 0 → allArgs.redirectStderr = 1 → ∃ fd : Nat,
        (finalWorld quietEnv allArgs 1 stdWorld).stderrFd = some (fd : Int)
        ∧ (finalWorld quietEnv allArgs 1 stdWorld).fds.lookup fd = some (.readEnd .stderrPipe)
        ∧ stdWorld.fds.lookup fd = none)
    ∧ (allArgs.redirectStdin = 0 → (finalWorld quietEnv allArgs 1 stdWorld).stdinFd = some (-1))
    ∧ (allArgs.redirectStdout = 0 → (finalWorld quietEnv allArgs 1 stdWorld).stdoutFd = some (-1))
    ∧ (allArgs.redirectStderr = 0 → (finalWorld quietEnv allArgs 1 stdWorld).stderrFd = some (-1)) :=
  success_outputs quietEnv allArgs 1 stdWorld 0 (finalWorld quietEnv allArgs 1 stdWorld)
    rfl (by decide)


/-! ## The exec barrier -/

/-- With valid arguments, no failing `pipe` and a `fork` that returns a child
identifier, the run is the success path. -/
theorem success_run (env : Env) (a : Args) (fuel : Nat) (w : World) (hw : w.trace = [])
    (hv1 : nullArgument a = false) (hv2 : badRedirect a = false)
    (hp : ∀ id, requested a id = true → env.pipeErr id = none)
    (hf : env.forkRet ≠ -1) (hc : env.forkRet ≠ 0) :
    SystemNative_ForkAndExecProcess env a fuel w
      = done env a true (pipe2Stage env a w).1 fuel (boundStage env a w) := by
  have hps : ¬ (pipesStage env a w).1 = true := by
    intro hpt
    obtain ⟨id, e, hr, he, _⟩ := (pipesStage_spec env a w hw).2.2.1 hpt
    rw [hp id hr] at he
    cases he
  rw [run_eq, if_neg (by simp [hv1, hv2]), if_neg hps, if_neg hf, if_neg hc]

theorem stages_readRes (env : Env) (rr : Nat → Int × Int) (a : Args) (w : World) :
    pipe2Stage { env with readRes := rr } a w = pipe2Stage env a w
    ∧ boundStage { env with readRes := rr } a w = boundStage env a w := ⟨rfl, rfl⟩

theorem closeEvents_append (l1 l2 : List Int) :
    closeEvents (l1 ++ l2) = closeEvents l1 ++ closeEvents l2 := by
  simp [closeEvents]

theorem mem_closeEvents (e : Event) (l : List Int) (h : e ∈ closeEvents l) :
    ∃ fd ∈ l, 0 ≤ fd ∧ e = Event.close fd := by
  unfold closeEvents at h
  rw [List.mem_map] at h
  obtain ⟨fd, h1, h2⟩ := h
  rw [List.mem_filter] at h1
  exact ⟨fd, h1.1, by simpa using h1.2, h2.symm⟩

/-- The barrier on the success path. -/
theorem barrier_success (env : Env) (a : Args) (fuel : Nat) (w : World) (n : Nat)
    (hw : w.trace = [])
    (hv1 : nullArgument a = false) (hv2 : badRedirect a = false)
    (hp : ∀ id, requested a id = true → env.pipeErr id = none)
    (h2 : env.havePipe2 = true) (h2e : env.pipeErr .execPipe = none)
    (hf : env.forkRet ≠ -1) (hc : env.forkRet ≠ 0)
    (hint : ∀ i, i < n → interrupted (env.readRes i) = true)
    (hstop : interrupted (env.readRes n) = false) (hfuel : n < fuel) :
    ∃ (br bw : Nat) (w' : World) (pre mid : List Event),
      SystemNative_ForkAndExecProcess env a fuel w = some (.returned 0 w')
      ∧ w'.trace = pre ++ [.pipe2 (some (br, bw)), .fork env.forkRet] ++ mid
          ++ [.close bw] ++ readEvents env br 0 n ++ [.close br]
      ∧ (∀ e ∈ pre, ∃ id res, e = Event.pipe id res)
      ∧ (∀ e ∈ mid, ∃ fd, e = Event.close fd ∧ fd ≠ bw ∧ fd ≠ br)
      ∧ w'.fds.lookup bw = none ∧ w'.fds.lookup br = none
      ∧ ∀ (rr : Nat → Int × Int) (fuel2 : Nat) (ret2 : Int) (w2 : World),
          SystemNative_ForkAndExecProcess { env with readRes := rr } a fuel2 w
            = some (.returned ret2 w2) →
          ret2 = 0 ∧ w2.childPid = w'.childPid ∧ w2.stdinFd = w'.stdinFd
            ∧ w2.stdoutFd = w'.stdoutFd ∧ w2.stderrFd = w'.stderrFd := by
  have T := forkStage_tracks env a w hw
  obtain ⟨_, _, hb, _, _⟩ := pipe2Stage_spec env a w hw
  obtain ⟨br, bw, hpair, htr2⟩ := hb h2 h2e
  obtain ⟨_, _, _, _, hpre⟩ := pipesStage_spec env a w hw
  have hrd : (pipe2Stage env a w).1.waitForChildToExecPipe.readEnd = br := by rw [hpair]
  have hwr : (pipe2Stage env a w).1.waitForChildToExecPipe.writeEnd = bw := by rw [hpair]
  have hne : (pipe2Stage env a w).1.waitForChildToExecPipe.readEnd ≠ -1 := by rw [hrd]; omega
  have hrun := success_run env a fuel w hw hv1 hv2 hp hf hc
  rw [done_success, if_pos hne] at hrun
  obtain ⟨w5, r1, r2, r3, r4, r5, r6, r7⟩ :=
    readLoop_total env (pipe2Stage env a w).1.waitForChildToExecPipe.readEnd n fuel 0
      (closeAll env (successCloses (pipe2Stage env a w).1) (boundStage env a w)) hfuel
      (fun i hi => by simpa using hint i hi) (by simpa using hstop)
  have r1' : readLoop env (pipe2Stage env a w).1.waitForChildToExecPipe.readEnd fuel 0
      (closeAll env [(pipe2Stage env a w).1.stdinFds.readEnd,
        (pipe2Stage env a w).1.stdoutFds.writeEnd, (pipe2Stage env a w).1.stderrFds.writeEnd,
        (pipe2Stage env a w).1.waitForChildToExecPipe.writeEnd] (boundStage env a w))
      = some w5 := r1
  rw [r1', Option.map_some'] at hrun
  have hbt : (boundStage env a w).trace
      = (pipesStage env a w).2.2.trace ++ [.pipe2 (some (br, bw)), .fork env.forkRet] := by
    show (forkStage env a w).trace = _
    rw [forkStage_eq]
    simp [htr2]
  obtain ⟨o1, o2, o3, o4⟩ := closeAll_outs env (successCloses (pipe2Stage env a w).1)
    (boundStage env a w)
  obtain ⟨c1, c2, c3, c4⟩ := CloseIfOpen_outs env
    (pipe2Stage env a w).1.waitForChildToExecPipe.readEnd w5
  refine ⟨br, bw, _, (pipesStage env a w).2.2.trace,
    closeEvents [(pipe2Stage env a w).1.stdinFds.readEnd,
      (pipe2Stage env a w).1.stdoutFds.writeEnd, (pipe2Stage env a w).1.stderrFds.writeEnd],
    hrun, ?_, hpre, ?_, ?_, ?_, ?_⟩
  · rw [CloseIfOpen_trace, r3, closeAll_trace, hbt, hrd]
    have e1 : closeEvents (successCloses (pipe2Stage env a w).1)
        = closeEvents [(pipe2Stage env a w).1.stdinFds.readEnd,
            (pipe2Stage env a w).1.stdoutFds.writeEnd,
            (pipe2Stage env a w).1.stderrFds.writeEnd] ++ [.close bw] := by
      have e3 : successCloses (pipe2Stage env a w).1
          = [(pipe2Stage env a w).1.stdinFds.readEnd,
              (pipe2Stage env a w).1.stdoutFds.writeEnd,
              (pipe2Stage env a w).1.stderrFds.writeEnd] ++ [(bw : Int)] := by
        unfold successCloses
        rw [hwr]
        rfl
      rw [e3, closeEvents_append]
      congr 1
    have e2 : closeEvents [(br : Int)] = [.close br] := by simp [closeEvents]
    rw [e1, e2]
    simp
  · intro e he
    obtain ⟨fd, hm, h0, hev⟩ := mem_closeEvents e _ he
    refine ⟨fd, hev, ?_, ?_⟩
    · intro hc1
      have hslot : (pipe2Stage env a w).1.entry .execPipe true = bw := hwr
      have hm2 : (bw : Int) ∈ [(PipeId.stdinPipe, false), (PipeId.stdoutPipe, true),
          (PipeId.stderrPipe, true)].map
            (fun s => (pipe2Stage env a w).1.entry s.1 s.2) := by rw [← hc1]; exact hm
      rw [mem_slots w _ _ T bw _ _ hslot] at hm2
      revert hm2; decide
    · intro hc1
      have hslot : (pipe2Stage env a w).1.entry .execPipe false = br := hrd
      have hm2 : (br : Int) ∈ [(PipeId.stdinPipe, false), (PipeId.stdoutPipe, true),
          (PipeId.stderrPipe, true)].map
            (fun s => (pipe2Stage env a w).1.entry s.1 s.2) := by rw [← hc1]; exact hm
      rw [mem_slots w _ _ T br _ _ hslot] at hm2
      revert hm2; decide
  · rw [CloseIfOpen_lookup, r2, closeAll_lookup]
    have : (bw : Int) ∈ successCloses (pipe2Stage env a w).1 := by
      unfold successCloses; rw [hwr]; simp
    simp [this]
  · rw [CloseIfOpen_lookup, hrd]
    simp
  · intro rr fuel2 ret2 w2 hrun2
    have hrun3 := success_run { env with readRes := rr } a fuel2 w hw hv1 hv2 hp hf hc
    rw [hrun3, (stages_readRes env rr a w).1, (stages_readRes env rr a w).2] at hrun2
    obtain ⟨k0, _, k1, k2, k3, k4, _⟩ := done_success_world _ _ _ _ _ _ _ hrun2
    refine ⟨k0, ?_, ?_, ?_, ?_⟩
    · rw [k1, c1, r4, o1]
    · rw [k2, c2, r5, o2]
    · rw [k3, c3, r6, o3]
    · rw [k4, c4, r7, o4]

theorem storeFailure_ok (a : Args) (w : World) (h : nullArgument a = false) :
    storeFailure a w = .returned (-1) { w with
      stdinFd := some (-1), stdoutFd := some (-1), stderrFd := some (-1),
      childPid := some (-1) } := by
  unfold nullArgument at h
  simp only [Bool.or_eq_false_iff, Bool.not_eq_false'] at h
  obtain ⟨⟨⟨⟨⟨⟨_, _⟩, _⟩, h4⟩, h5⟩, h6⟩, h7⟩ := h
  simp [storeFailure, h4, h5, h6, h7]

/-- The barrier when `fork` fails: both ends are closed, nothing is read. -/
theorem barrier_fork_failure (env : Env) (a : Args) (fuel : Nat) (w : World)
    (hw : w.trace = [])
    (hv1 : nullArgument a = false) (hv2 : badRedirect a = false)
    (hp : ∀ id, requested a id = true → env.pipeErr id = none)
    (h2 : env.havePipe2 = true) (h2e : env.pipeErr .execPipe = none)
    (hf : env.forkRet = -1) :
    ∃ (br bw : Nat) (w' : World) (pre mid post : List Event),
      SystemNative_ForkAndExecProcess env a fuel w = some (.returned (-1) w')
      ∧ w'.trace = pre ++ [.pipe2 (some (br, bw)), .fork (-1)] ++ mid
          ++ [.close bw, .close br] ++ post
      ∧ (∀ e ∈ pre, ∃ id res, e = Event.pipe id res)
      ∧ (∀ e ∈ mid, ∃ fd, e = Event.close fd)
      ∧ (∀ e ∈ post, ∃ fd, e = Event.close fd) := by
  obtain ⟨_, _, hb, _, _⟩ := pipe2Stage_spec env a w hw
  obtain ⟨br, bw, hpair, htr2⟩ := hb h2 h2e
  obtain ⟨_, _, pf, _, hpre⟩ := pipesStage_spec env a w hw
  have hrd : (pipe2Stage env a w).1.waitForChildToExecPipe.readEnd = br := by rw [hpair]
  have hwr : (pipe2Stage env a w).1.waitForChildToExecPipe.writeEnd = bw := by rw [hpair]
  have hps : ¬ (pipesStage env a w).1 = true := by
    intro hpt
    obtain ⟨id, e, hr, he, _⟩ := pf hpt
    rw [hp id hr] at he
    cases he
  have hrun := run_eq env a fuel w
  rw [if_neg (by simp [hv1, hv2]), if_neg hps, if_pos hf, storeFailure_ok a _ hv1] at hrun
  refine ⟨br, bw, _, (pipesStage env a w).2.2.trace,
    closeEvents [(pipe2Stage env a w).1.stdinFds.readEnd,
      (pipe2Stage env a w).1.stdoutFds.writeEnd, (pipe2Stage env a w).1.stderrFds.writeEnd],
    closeEvents [(pipe2Stage env a w).1.stdinFds.writeEnd,
      (pipe2Stage env a w).1.stdoutFds.readEnd, (pipe2Stage env a w).1.stderrFds.readEnd],
    hrun, ?_, hpre, ?_, ?_⟩
  · show (closeAll env (failureCloses (pipe2Stage env a w).1) (forkStage env a w)).trace = _
    have e3 : failureCloses (pipe2Stage env a w).1
        = [(pipe2Stage env a w).1.stdinFds.readEnd,
            (pipe2Stage env a w).1.stdoutFds.writeEnd,
            (pipe2Stage env a w).1.stderrFds.writeEnd] ++ ([(bw : Int), (br : Int)]
          ++ [(pipe2Stage env a w).1.stdinFds.writeEnd,
            (pipe2Stage env a w).1.stdoutFds.readEnd,
            (pipe2Stage env a w).1.stderrFds.readEnd]) := by
      unfold failureCloses
      rw [hwr, hrd]
      rfl
    have e4 : closeEvents [(bw : Int), (br : Int)] = [.close bw, .close br] := by
      simp [closeEvents]
    rw [closeAll_trace, e3, closeEvents_append, closeEvents_append, e4, forkStage_eq, htr2, hf]
    simp
  · intro e he
    obtain ⟨fd, _, _, hev⟩ := mem_closeEvents e _ he
    exact ⟨fd, hev⟩
  · intro e he
    obtain ⟨fd, _, _, hev⟩ := mem_closeEvents e _ he
    exact ⟨fd, hev⟩

/-- C10 (as the code behaves): when the barrier pipe was created, the cleanup
closes the barrier's write end first.  If `fork` succeeded (parent), then,
given a barrier read that is interrupted `n` times and enough fuel for `n + 1`
reads, the call returns `0` and its log is: `pipe` calls, the `pipe2` and the
`fork`, `close` calls on other descriptors, the `close` of the barrier's write
end, exactly `n + 1` one-byte reads of the barrier's read end (one more after
each read that gave `-1` with `EINTR`), and last the `close` of the read end;
both barrier ends are closed at return, and the return value and the outputs
are the same for every other sequence of `read` results.  If `fork` failed, the
call returns `-1` having closed the write end and then the read end, and its
log holds no `read` at all. -/
theorem barrier_protocol (env : Env) (a : Args) (w : World) (hw : w.trace = [])
    (hv1 : nullArgument a = false) (hv2 : badRedirect a = false)
    (hp : ∀ id, requested a id = true → env.pipeErr id = none)
    (h2 : env.havePipe2 = true) (h2e : env.pipeErr .execPipe = none) :
    (env.forkRet ≠ -1 → env.forkRet ≠ 0 → ∀ (n fuel : Nat),
      (∀ i, i < n → interrupted (env.readRes i) = true) →
      interrupted (env.readRes n) = false → n < fuel →
      ∃ (br bw : Nat) (w' : World) (pre mid : List Event),
        SystemNative_ForkAndExecProcess env a fuel w = some (.returned 0 w')
        ∧ w'.trace = pre ++ [.pipe2 (some (br, bw)), .fork env.forkRet] ++ mid
            ++ [.close bw] ++ readEvents env br 0 n ++ [.close br]
        ∧ (∀ e ∈ pre, ∃ id res, e = Event.pipe id res)
        ∧ (∀ e ∈ mid, ∃ fd, e = Event.close fd ∧ fd ≠ bw ∧ fd ≠ br)
        ∧ w'.fds.lookup bw = none ∧ w'.fds.lookup br = none
        ∧ ∀ (rr : Nat → Int × Int) (fuel2 : Nat) (ret2 : Int) (w2 : World),
            SystemNative_ForkAndExecProcess { env with readRes := rr } a fuel2 w
              = some (.returned ret2 w2) →
            ret2 = 0 ∧ w2.childPid = w'.childPid ∧ w2.stdinFd = w'.stdinFd
              ∧ w2.stdoutFd = w'.stdoutFd ∧ w2.stderrFd = w'.stderrFd)
    ∧ (env.forkRet = -1 → ∀ fuel : Nat,
      ∃ (br bw : Nat) (w' : World) (pre mid post : List Event),
        SystemNative_ForkAndExecProcess env a fuel w = some (.returned (-1) w')
        ∧ w'.trace = pre ++ [.pipe2 (some (br, bw)), .fork (-1)] ++ mid
            ++ [.close bw, .close br] ++ post
        ∧ (∀ e ∈ pre, ∃ id res, e = Event.pipe id res)
        ∧ (∀ e ∈ mid, ∃ fd, e = Event.close fd)
        ∧ (∀ e ∈ post, ∃ fd, e = Event.close fd)) :=
  ⟨fun hf hc n fuel hint hstop hfuel =>
      barrier_success env a fuel w n hw hv1 hv2 hp h2 h2e hf hc hint hstop hfuel,
    fun hf fuel => barrier_fork_failure env a fuel w hw hv1 hv2 hp h2 h2e hf⟩

theorem barrier_protocol_witness :
    (∃ (br bw : Nat) (w' : World) (pre mid : List Event),
        SystemNative_ForkAndExecProcess interruptedEnv allArgs 3 stdWorld
          = some (.returned 0 w')
        ∧ w'.trace = pre ++ [.pipe2 (some (br, bw)), .fork interruptedEnv.forkRet] ++ mid
            ++ [.close bw] ++ readEvents interruptedEnv br 0 2 ++ [.close br]
        ∧ (∀ e ∈ pre, ∃ id res, e = Event.pipe id res)
        ∧ (∀ e ∈ mid, ∃ fd, e = Event.close fd ∧ fd ≠ bw ∧ fd ≠ br)
        ∧ w'.fds.lookup bw = none ∧ w'.fds.lookup br = none
        ∧ ∀ (rr : Nat → Int × Int) (fuel2 : Nat) (ret2 : Int) (w2 : World),
            SystemNative_ForkAndExecProcess { interruptedEnv with readRes := rr } allArgs fuel2
              stdWorld = some (.returned ret2 w2) →
            ret2 = 0 ∧ w2.childPid = w'.childPid ∧ w2.stdinFd = w'.stdinFd
              ∧ w2.stdoutFd = w'.stdoutFd ∧ w2.stderrFd = w'.stderrFd)
    ∧ (∃ (br bw : Nat) (w' : World) (pre mid post : List Event),
        SystemNative_ForkAndExecProcess forkFailEnv allArgs 0 stdWorld
          = some (.returned (-1) w')
        ∧ w'.trace = pre ++ [.pipe2 (some (br, bw)), .fork (-1)] ++ mid
            ++ [.close bw, .close br] ++ post
        ∧ (∀ e ∈ pre, ∃ id res, e = Event.pipe id res)
        ∧ (∀ e ∈ mid, ∃ fd, e = Event.close fd)
        ∧ (∀ e ∈ post, ∃ fd, e = Event.close fd)) :=
  ⟨(barrier_protocol interruptedEnv allArgs stdWorld rfl (by decide) (by decide)
      (fun _ _ => rfl) rfl rfl).1 (by decide) (by decide) 2 3 (by decide) (by decide)
      (by decide),
    (barrier_protocol forkFailEnv allArgs stdWorld rfl (by decide) (by decide)
      (fun _ _ => rfl) rfl rfl).2 (by decide) 0⟩

/-- C10 (the claim as stated fails): with the barrier pipe created and `fork`
failing, the call returns `-1` having closed both barrier ends without a
single `read`. -/
theorem barrier_not_read_after_fork_failure :
    SystemNative_ForkAndExecProcess forkFailEnv allArgs 5 stdWorld
      = some (.returned (-1) (finalWorld forkFailEnv allArgs 5 stdWorld))
    ∧ Event.pipe2 (some (9, 10)) ∈ (finalWorld forkFailEnv allArgs 5 stdWorld).trace
    ∧ closeCount 10 (finalWorld forkFailEnv allArgs 5 stdWorld).trace = 1
    ∧ closeCount 9 (finalWorld forkFailEnv allArgs 5 stdWorld).trace = 1
    ∧ (finalWorld forkFailEnv allArgs 5 stdWorld).trace.any Event.isRead = false := by
  decide

/-! ## The child's standard streams -/

/-- C9 (the code at two inputs where `pipe()` returns a standard descriptor
number): every `dup2` succeeds, yet a redirected standard stream is closed
when `execve` is called.  With descriptor 0 closed in the parent and stdin
redirected, `pipe(stdinFds)` returns `{0, 3}`, `dup2(0, 0)` changes nothing and
`CloseIfOpen(stdinFds[READ_END_OF_PIPE])` closes descriptor 0.  With descriptor
1 closed in the parent and stdin and stdout redirected, `pipe(stdinFds)`
returns `{1, 3}`, `dup2(5, 1)` puts the stdout pipe on descriptor 1 and
`CloseIfOpen(stdinFds[READ_END_OF_PIPE])` then closes descriptor 1. -/
theorem child_closes_redirected_stream :
    (SystemNative_ForkAndExecProcess childEnv stdinOnlyArgs 0 stdinClosedWorld
        = some (.execed (finalWorld childEnv stdinOnlyArgs 0 stdinClosedWorld))
      ∧ Event.pipe .stdinPipe (some (0, 3))
          ∈ (finalWorld childEnv stdinOnlyArgs 0 stdinClosedWorld).trace
      ∧ Event.dup2 0 0 0 ∈ (finalWorld childEnv stdinOnlyArgs 0 stdinClosedWorld).trace
      ∧ (finalWorld childEnv stdinOnlyArgs 0 stdinClosedWorld).fds.lookup STDIN_FILENO = none)
    ∧ (SystemNative_ForkAndExecProcess childEnv stdinStdoutArgs 0 stdoutClosedWorld
        = some (.execed (finalWorld childEnv stdinStdoutArgs 0 stdoutClosedWorld))
      ∧ Event.pipe .stdinPipe (some (1, 3))
          ∈ (finalWorld childEnv stdinStdoutArgs 0 stdoutClosedWorld).trace
      ∧ Event.dup2 1 0 0 ∈ (finalWorld childEnv stdinStdoutArgs 0 stdoutClosedWorld).trace
      ∧ Event.dup2 5 1 1 ∈ (finalWorld childEnv stdinStdoutArgs 0 stdoutClosedWorld).trace
      ∧ (finalWorld childEnv stdinStdoutArgs 0 stdoutClosedWorld).fds.lookup STDIN_FILENO
          = some (.readEnd .stdinPipe)
      ∧ (finalWorld childEnv stdinStdoutArgs 0 stdoutClosedWorld).fds.lookup STDOUT_FILENO
          = none) := by
  decide

/-- With the usual three descriptors open in the parent the child is wired
as intended. -/
theorem child_redirects_from_std_world :
    SystemNative_ForkAndExecProcess childEnv allArgs 0 stdWorld
        = some (.execed (finalWorld childEnv allArgs 0 stdWorld))
    ∧ (finalWorld childEnv allArgs 0 stdWorld).fds
        = [some (.readEnd .stdinPipe), some (.writeEnd .stdoutPipe),
            some (.writeEnd .stderrPipe), none, none, none, none, none, none,
            some (.readEnd .execPipe), some (.writeEnd .execPipe)] := by
  decide

/-! ## Argument validation -/

theorem and_not_one (n : Nat) (h : n < 2 ^ 32) : n &&& 0xFFFFFFFE = 0 ↔ n < 2 := by
  have e1 : (0xFFFFFFFE : Nat) = (2 ^ 32 - 1) ^^^ 1 := by decide
  rw [e1, Nat.and_xor_distrib_left, Nat.and_pow_two_sub_one_eq_mod, Nat.and_one_is_mod,
    Nat.mod_eq_of_lt h, Nat.xor_eq_zero]
  omega

/-- The test `(x & ~1) != 0` rejects exactly the `int32_t` values other than
`0` and `1`. -/
theorem notZeroOrOne_iff (x : Int) (h1 : -2 ^ 31 ≤ x) (h2 : x < 2 ^ 31) :
    notZeroOrOne x = false ↔ (x = 0 ∨ x = 1) := by
  unfold notZeroOrOne toUInt32
  have hlt : (x % 2 ^ 32).toNat < 2 ^ 32 := by omega
  simp only [ne_eq, decide_not, Bool.not_eq_false', decide_eq_true_eq]
  rw [and_not_one _ hlt]
  omega

/-- A call with all four output pointers present and a null `filename`, `argv`
or `envp` or a redirect flag that fails the test returns `-1` with
`errno = EINVAL` and `-1` in every output, without any system call and
without a change to the descriptor table. -/
theorem invalid_arguments_rejected (env : Env) (a : Args) (fuel : Nat) (w : World)
    (hs : a.childPid = true ∧ a.stdinFd = true ∧ a.stdoutFd = true ∧ a.stderrFd = true)
    (hbad : nullArgument a = true ∨ badRedirect a = true) :
    SystemNative_ForkAndExecProcess env a fuel w
      = some (.returned (-1) { w with
          errno := EINVAL, stdinFd := some (-1), stdoutFd := some (-1),
          stderrFd := some (-1), childPid := some (-1) }) := by
  rw [run_eq, if_pos hbad]
  obtain ⟨h1, h2, h3, h4⟩ := hs
  simp [storeFailure, h1, h2, h3, h4]

/-! ## Termination -/

/-- If some barrier read is not interrupted, enough fuel makes the run end. -/
theorem run_total (env : Env) (a : Args) (w : World) (n : Nat)
    (hstop : interrupted (env.readRes n) = false) (fuel : Nat) (hfuel : n < fuel) :
    ∃ o, SystemNative_ForkAndExecProcess env a fuel w = some o := by
  have hex : ∃ k, interrupted (env.readRes k) = false := ⟨n, hstop⟩
  have hmin : ∀ i, i < Nat.find hex → interrupted (env.readRes i) = true := by
    intro i hi
    have := Nat.find_min hex hi
    simpa using this
  have hle : Nat.find hex ≤ n := Nat.find_min' hex hstop
  rw [run_eq]
  split
  · exact ⟨_, rfl⟩
  · split
    · exact ⟨_, rfl⟩
    · split
      · exact ⟨_, rfl⟩
      · split
        · exact ⟨_, rfl⟩
        · rw [done_success]
          split
          · obtain ⟨w5, r1, _⟩ := readLoop_total env
              (pipe2Stage env a w).1.waitForChildToExecPipe.readEnd (Nat.find hex) fuel 0
              (closeAll env (successCloses (pipe2Stage env a w).1) (boundStage env a w))
              (by omega) (fun i hi => by simpa using hmin i hi)
              (by simpa using Nat.find_spec hex)
            have r1' : readLoop env (pipe2Stage env a w).1.waitForChildToExecPipe.readEnd
                fuel 0
                (closeAll env [(pipe2Stage env a w).1.stdinFds.readEnd,
                  (pipe2Stage env a w).1.stdoutFds.writeEnd,
                  (pipe2Stage env a w).1.stderrFds.writeEnd,
                  (pipe2Stage env a w).1.waitForChildToExecPipe.writeEnd]
                  (boundStage env a w)) = some w5 := r1
            rw [r1']
            exact ⟨_, rfl⟩
          · exact ⟨_, rfl⟩

end PalProcess
